import Mathlib

/-!
Si570 frequency-synthesis engine (`firmware/DeviceSi570.c`).

A shallow embedding of the divider solver, the fractional tuning word
calculator, the smooth-tune decision and the register write protocol of the
USB-AVR-Si570 firmware, together with the properties proved about them.

Conventions of the embedding (build with `INCLUDE_SI570`, `INCLUDE_SI570_GRADE`
and `INCLUDE_SMOOTH` enabled, ATtiny45 target, 16-bit `int`):

* machine integers are natural numbers, reduced explicitly modulo `2^8`,
  `2^16` or `2^32` wherever the C or assembly operation wraps;
* the unions `sint16_t` / `sint32_t` of `main.h` are little endian: `x.w1.w`
  is the high 16-bit word of a 32-bit value, `x.w0.b0` its lowest byte, `x.b0`
  the low byte of a 16-bit value; the macro `_2(n)` is `2^n`;
* a C division by zero is undefined behaviour and is modelled as `none`;
* file-scope variables and the fields of the configuration `R` that a
  function reads are passed as arguments, those it writes are returned.
-/

namespace Si570

/-! ## Divider solver -/

/-- Modelled from the spec: the chip grade held in `R.Si570Grade`, one of
A, B, C, D; the source compares it with the constants `CHIP_SI570_A` ..
`CHIP_SI570_D` of `main.h`.  `other` stands for any value that equals none of
them (the final empty `else` of the source). -/
inductive ChipGrade where
  | A | B | C | D | other
  deriving DecidableEq, Repr

/-- The file-scope variables `Si570_N`, `Si570_N1`, `Si570_HS_DIV`. -/
structure Dividers where
  Si570_N : Nat
  Si570_N1 : Nat
  Si570_HS_DIV : Nat
  deriving DecidableEq, Repr

/-- The locals `sHS_DIV`, `sN1`, `sN` of `Si570CalcDivider`. -/
structure Found where
  sHS_DIV : Nat
  sN1 : Nat
  sN : Nat
  deriving DecidableEq, Repr

/-- The computation of `N0` (line 64):
`N0 = (R.Si570DCOMin * (uint16_t)(_2(3))) / (Freq.w1.w >> 2)`.
The product is a 16-bit unsigned product; the divisor is the high word of
`freq` shifted right by two.  A zero divisor is undefined behaviour. -/
def calcN0 (DCOMin freq : Nat) : Option Nat :=
  let w1 := (freq / 65536) % 65536
  let d := w1 / 4
  if d = 0 then none else some (((DCOMin * 8) % 65536) / d)

/-- The grade-dependent `continue` conditions (lines 86-138): `true` when the
pair `(xN1.b0, xHS_DIV)` is skipped. -/
def gradeSkip (grade : ChipGrade) (b0 xHS_DIV : Nat) : Bool :=
  match grade with
  | .A => false
  | .B =>
      (b0 == 1 && xHS_DIV == 4)
      || (b0 == 1 && xHS_DIV == 5)
  | .C =>
      (b0 == 1 && xHS_DIV == 4)
      || (b0 == 1 && xHS_DIV == 5)
      || (b0 == 1 && xHS_DIV == 6)
      || (b0 == 1 && xHS_DIV == 7)
      || (b0 == 1 && xHS_DIV == 11)
      || (b0 == 2 && xHS_DIV == 4)
      || (b0 == 2 && xHS_DIV == 5)
      || (b0 == 2 && xHS_DIV == 6)
      || (b0 == 2 && xHS_DIV == 7)
      || (b0 == 2 && xHS_DIV == 9)
      || (b0 == 4 && xHS_DIV == 4)
  | .D =>
      (b0 == 1 && xHS_DIV == 4)
      || (b0 == 1 && xHS_DIV == 5)
      || (b0 == 1 && xHS_DIV == 6)
      || (b0 == 1 && xHS_DIV == 7)
      || (b0 == 1 && xHS_DIV == 11)
      || (b0 == 2 && xHS_DIV == 4)
      || (b0 == 2 && xHS_DIV == 5)
      || (b0 == 2 && xHS_DIV == 6)
      || (b0 == 2 && xHS_DIV == 7)
      || (b0 == 2 && xHS_DIV == 9)
  | .other => false

/-- One pass through the body of the `for` loop (lines 70-148) for the
current `xHS_DIV`; a `continue` leaves the saved dividers unchanged. -/
def divBody (grade : ChipGrade) (N0 : Nat) (s : Found) (xHS_DIV : Nat) : Found :=
  if xHS_DIV = 8 ∨ xHS_DIV = 10 then s
  else
    let xN1w := (N0 / xHS_DIV + 1) % 65536
    if xN1w > 128 then s
    else
      let b0 := xN1w % 256
      let b0 := if b0 ≠ 1 ∧ b0 &&& 1 = 1 then (b0 + 1) % 256 else b0
      if gradeSkip grade b0 xHS_DIV then s
      else
        let xN := (xHS_DIV * b0) % 65536
        if s.sN > xN then { sHS_DIV := xHS_DIV, sN1 := b0, sN := xN } else s

/-- The values taken by `xHS_DIV` in
`for(xHS_DIV = 11; xHS_DIV > 3; --xHS_DIV)`, in order. -/
def hsRange : List Nat := [11, 10, 9, 8, 7, 6, 5, 4]

/-- The whole `for` loop, started from `sHS_DIV = 0`, `sN1 = 0`,
`sN = 11*128`. -/
def divSearch (grade : ChipGrade) (N0 : Nat) : Found :=
  hsRange.foldl (divBody grade N0) { sHS_DIV := 0, sN1 := 0, sN := 11 * 128 }

/-- The function `Si570CalcDivider(freq)`: the returned flag together with
the file-scope dividers after the call (`g` before the call).  `none` when the
computation of `N0` divides by zero. -/
def Si570CalcDivider (DCOMin : Nat) (grade : ChipGrade) (freq : Nat) (g : Dividers) :
    Option (Bool × Dividers) :=
  match calcN0 DCOMin freq with
  | none => none
  | some N0 =>
      let s := divSearch grade N0
      if s.sHS_DIV = 0 then some (false, g)
      else some (true, { Si570_N := s.sN, Si570_N1 := s.sN1, Si570_HS_DIV := s.sHS_DIV })


/-! ### The claimed candidate set, stated independently of the loop -/

/-- The supported high-speed dividers, in the order the loop visits them. -/
def hsDivs : List Nat := [11, 9, 7, 6, 5, 4]

/-- The forbidden `(N1, HS_DIV)` pairs of each grade, as enumerated in the
specification. -/
def forbiddenPairs : ChipGrade → List (Nat × Nat)
  | .A => []
  | .B => [(1, 4), (1, 5)]
  | .C => [(1, 4), (1, 5), (1, 6), (1, 7), (1, 11),
           (2, 4), (2, 5), (2, 6), (2, 7), (2, 9), (4, 4)]
  | .D => [(1, 4), (1, 5), (1, 6), (1, 7), (1, 11),
           (2, 4), (2, 5), (2, 6), (2, 7), (2, 9)]
  | .other => []

/-- The candidate `N1(h)`: `N0/h + 1`, rounded up to the next even number
when it is odd and not 1. -/
def candN1 (N0 h : Nat) : Nat :=
  if (N0 / h + 1) % 2 = 1 ∧ N0 / h + 1 ≠ 1 then N0 / h + 1 + 1 else N0 / h + 1

/-- The total division `N = N1(h) * h` of the candidate for `h`. -/
def candN (N0 h : Nat) : Nat := candN1 N0 h * h

/-- A candidate is valid when `N0/h + 1 <= 128` and the pair is not forbidden
for the grade. -/
def validCand (grade : ChipGrade) (N0 h : Nat) : Prop :=
  N0 / h + 1 ≤ 128 ∧ (candN1 N0 h, h) ∉ forbiddenPairs grade

instance (grade : ChipGrade) (N0 h : Nat) : Decidable (validCand grade N0 h) := by
  unfold validCand; infer_instance

/-- Loop invariant of the search once the dividers in `proc` have been
visited: either nothing was saved yet and every valid candidate met so far has
the sentinel total `11*128` or more, or the saved candidate is valid, below the
sentinel, minimal among those met, and the first (largest `HS_DIV`) of its
total. -/
def SearchInv (grade : ChipGrade) (N0 : Nat) (proc : List Nat) (s : Found) : Prop :=
  (s.sHS_DIV = 0 ∧ s.sN = 11 * 128 ∧
      ∀ h ∈ proc, h ∈ hsDivs → validCand grade N0 h → 11 * 128 ≤ candN N0 h)
  ∨ (s.sHS_DIV ∈ hsDivs ∧ s.sHS_DIV ∈ proc ∧ validCand grade N0 s.sHS_DIV
      ∧ s.sN1 = candN1 N0 s.sHS_DIV ∧ s.sN = candN N0 s.sHS_DIV ∧ s.sN < 11 * 128
      ∧ ∀ h ∈ proc, h ∈ hsDivs → validCand grade N0 h →
          s.sN < candN N0 h ∨ (s.sN = candN N0 h ∧ h ≤ s.sHS_DIV))


/-! ## Fractional tuning word calculator -/

/-! ### The AVR instructions used by the inline assembly

Each instruction maps 8-bit register values and the carry flag (0 or 1) to
the new register value and the new carry flag. -/

/-- The instruction `add Rd,Rr`. -/
def avr_add (rd rr : Nat) : Nat × Nat := ((rd + rr) % 256, (rd + rr) / 256)

/-- The instruction `adc Rd,Rr` with incoming carry `c`. -/
def avr_adc (rd rr c : Nat) : Nat × Nat := ((rd + rr + c) % 256, (rd + rr + c) / 256)

/-- The instruction `sub Rd,Rr`; the carry flag is the borrow. -/
def avr_sub (rd rr : Nat) : Nat × Nat :=
  ((rd + 256 - rr) % 256, if rd < rr then 1 else 0)

/-- The instruction `sbc Rd,Rr` with incoming borrow `c`. -/
def avr_sbc (rd rr c : Nat) : Nat × Nat :=
  ((rd + 256 - rr - c) % 256, if rd < rr + c then 1 else 0)

/-- The instruction `ror Rd`: rotate right through carry. -/
def avr_ror (rd c : Nat) : Nat × Nat := (c * 128 + rd / 2, rd % 2)

/-- The instruction `rol Rd`: rotate left through carry. -/
def avr_rol (rd c : Nat) : Nat × Nat := ((rd * 2 + c) % 256, rd / 128)

/-- A counted assembly loop `L: body; dec cnt; brne L` entered with
`cnt >= 1`: the body runs `cnt` times (`dec` leaves the carry flag alone). -/
def asmLoop {σ : Type} (body : σ → σ) : Nat → σ → σ
  | 0, s => s
  | n + 1, s => asmLoop body n (body s)

/-- Registers of the multiply block: `a0..a3` are `%A0..%D0` (`RFREQ.dw`,
least significant first), `b4` is `%1` (`RFREQ_b4`), `tmp` is `__tmp_reg__`,
`c` the carry flag. -/
structure MulRegs where
  a0 : Nat
  a1 : Nat
  a2 : Nat
  a3 : Nat
  b4 : Nat
  tmp : Nat
  c : Nat
  deriving DecidableEq, Repr

/-- One pass of the multiply loop (lines 200-215), `nl`/`nh` being the low
and high byte of `Si570_N` (`%A2`, `%B2`). -/
def mulBody (nl nh : Nat) (s : MulRegs) : MulRegs :=
  -- brcc L_B ; add %1,%A2 ; adc __tmp_reg__,%B2
  let b4 := if s.c = 0 then s.b4 else (avr_add s.b4 nl).1
  let tmp := if s.c = 0 then s.tmp else (avr_adc s.tmp nh (avr_add s.b4 nl).2).1
  let c := if s.c = 0 then s.c else (avr_adc s.tmp nh (avr_add s.b4 nl).2).2
  -- ror __tmp_reg__ ; ror %A1 ; ror %D0 ; ror %C0 ; ror %B0 ; ror %A0
  let rt := avr_ror tmp c
  let r4 := avr_ror b4 rt.2
  let r3 := avr_ror s.a3 r4.2
  let r2 := avr_ror s.a2 r3.2
  let r1 := avr_ror s.a1 r2.2
  let r0 := avr_ror s.a0 r1.2
  { a0 := r0.1, a1 := r1.1, a2 := r2.1, a3 := r3.1, b4 := r4.1, tmp := rt.1, c := r0.2 }

/-- Registers on entry to the multiply loop: `%0` preloaded with `freq`,
`clr __tmp_reg__`, `sub %1,%1` (which also clears the carry). -/
def mulInit (freq : Nat) : MulRegs :=
  { a0 := freq % 256, a1 := freq / 256 % 256, a2 := freq / 65536 % 256,
    a3 := freq / 16777216 % 256, b4 := 0, tmp := 0, c := 0 }

/-- The multiply block (lines 195-232): `cnt = 32+1` passes of the loop. -/
def asmMul (N freq : Nat) : MulRegs :=
  asmLoop (mulBody (N % 256) (N / 256 % 256)) (32 + 1) (mulInit freq)

/-- Registers of the divide block: `q0..q4` are `%0..%4` (dividend and
quotient, least significant first), `r0..r3` are `%A6..%D6` (the remainder
`RR`), `c` the carry flag. -/
structure DivRegs where
  q0 : Nat
  q1 : Nat
  q2 : Nat
  q3 : Nat
  q4 : Nat
  r0 : Nat
  r1 : Nat
  r2 : Nat
  r3 : Nat
  c : Nat
  deriving DecidableEq, Repr

/-- One pass of the divide loop (lines 266-296), `x0..x3` being the bytes
`%A7..%D7` of `R.FreqXtal`. -/
def divStep (x0 x1 x2 x3 : Nat) (s : DivRegs) : DivRegs :=
  -- rol %0 ; rol %1 ; rol %2 ; rol %3 ; rol %4
  let l0 := avr_rol s.q0 s.c
  let l1 := avr_rol s.q1 l0.2
  let l2 := avr_rol s.q2 l1.2
  let l3 := avr_rol s.q3 l2.2
  let l4 := avr_rol s.q4 l3.2
  -- rol %A6 ; rol %B6 ; rol %C6 ; rol %D6
  let m0 := avr_rol s.r0 l4.2
  let m1 := avr_rol s.r1 m0.2
  let m2 := avr_rol s.r2 m1.2
  let m3 := avr_rol s.r3 m2.2
  -- sub %A6,%A7 ; sbc %B6,%B7 ; sbc %C6,%C7 ; sbc %D6,%D7
  let s0 := avr_sub m0.1 x0
  let s1 := avr_sbc m1.1 x1 s0.2
  let s2 := avr_sbc m2.1 x2 s1.2
  let s3 := avr_sbc m3.1 x3 s2.2
  if s3.2 = 0 then
    -- brcc L_B ; sec
    { q0 := l0.1, q1 := l1.1, q2 := l2.1, q3 := l3.1, q4 := l4.1,
      r0 := s0.1, r1 := s1.1, r2 := s2.1, r3 := s3.1, c := 1 }
  else
    -- add %A6,%A7 ; adc %B6,%B7 ; adc %C6,%C7 ; adc %D6,%D7 ; clc
    let t0 := avr_add s0.1 x0
    let t1 := avr_adc s1.1 x1 t0.2
    let t2 := avr_adc s2.1 x2 t1.2
    let t3 := avr_adc s3.1 x3 t2.2
    { q0 := l0.1, q1 := l1.1, q2 := l2.1, q3 := l3.1, q4 := l4.1,
      r0 := t0.1, r1 := t1.1, r2 := t2.1, r3 := t3.1, c := 0 }

/-- The final `adc %0..%4,__zero_reg__` chain (lines 300-304): rounding by
the last partial result bit. -/
def divRound (s : DivRegs) : DivRegs :=
  let k0 := avr_adc s.q0 0 s.c
  let k1 := avr_adc s.q1 0 k0.2
  let k2 := avr_adc s.q2 0 k1.2
  let k3 := avr_adc s.q3 0 k2.2
  let k4 := avr_adc s.q4 0 k3.2
  { s with q0 := k0.1, q1 := k1.1, q2 := k2.1, q3 := k3.1, q4 := k4.1, c := k4.2 }

/-- Registers on entry to the divide loop: `RR = 0`, `clc`, `%0..%4`
preloaded with the product bytes `RFREQ.w0.b0 .. RFREQ.w1.b1`, `RFREQ_b4`. -/
def divInit (m : MulRegs) : DivRegs :=
  { q0 := m.a0, q1 := m.a1, q2 := m.a2, q3 := m.a3, q4 := m.b4,
    r0 := 0, r1 := 0, r2 := 0, r3 := 0, c := 0 }

/-- The divide loop (lines 260-298): `cnt = 40+1+28+3` passes. -/
def divLoop (FreqXtal : Nat) (m : MulRegs) : DivRegs :=
  asmLoop
    (divStep (FreqXtal % 256) (FreqXtal / 256 % 256) (FreqXtal / 65536 % 256)
      (FreqXtal / 16777216 % 256))
    (40 + 1 + 28 + 3) (divInit m)

/-- The divide block (lines 260-326): the loop, then the rounding chain. -/
def asmDiv (FreqXtal : Nat) (m : MulRegs) : DivRegs :=
  divRound (divLoop FreqXtal m)

/-- Modelled from the spec: the type `Si570_t` of the global `Si570_Data`,
declared in `main.h`, which is not part of the sources.  Its members, as the
source uses them: the bit fields `N1` (five bits, `N1[6:2]` of the chip) and
`HS_DIV` (three bits), the byte `RFREQ_b4` and the four bytes of the
`sint32_t RFREQ` member. -/
structure Si570_t where
  N1 : Nat
  HS_DIV : Nat
  RFREQ_b4 : Nat
  RFREQ_w0_b0 : Nat
  RFREQ_w0_b1 : Nat
  RFREQ_w1_b0 : Nat
  RFREQ_w1_b1 : Nat
  deriving DecidableEq, Repr

/-- Modelled from the spec: the byte view `Si570_Data.bData[0..5]` of the
union `Si570_t`, whose declaration (`main.h`) is not part of the sources.
Byte 0 holds the `HS_DIV` field in its top three bits and the `N1` field below
it, byte 1 is `RFREQ_b4`, bytes 2..5 are the four bytes of `RFREQ` in memory
order (`w0.b0`, `w0.b1`, `w1.b0`, `w1.b1`). -/
def Si570_t.bData (d : Si570_t) : List Nat :=
  [d.HS_DIV * 32 + d.N1, d.RFREQ_b4,
   d.RFREQ_w0_b0, d.RFREQ_w0_b1, d.RFREQ_w1_b0, d.RFREQ_w1_b1]

/-- The function `Si570CalcRFREQ(freq)`: the returned value together with
`Si570_Data` after the call.  `DCOMax` is `R.Si570DCOMax`, `FreqXtal` is
`R.FreqXtal`, `g` holds the stored dividers, `data` is `Si570_Data` before
the call. -/
def Si570CalcRFREQ (DCOMax FreqXtal : Nat) (g : Dividers) (freq : Nat) (data : Si570_t) :
    Nat × Si570_t :=
  -- sN1 = Si570_N1 - 1 (uint8_t)
  let sN1 := (g.Si570_N1 + 256 - 1) % 256
  -- Si570_Data.N1 = sN1 >> 2 ; Si570_Data.HS_DIV = Si570_HS_DIV - 4
  let data1 : Si570_t :=
    { data with N1 := (sN1 / 4) % 32, HS_DIV := (g.Si570_HS_DIV + 256 - 4) % 8 }
  let m := asmMul g.Si570_N freq
  -- DCO.b0 = RFREQ.w1.b1 ; DCO.b1 = RFREQ_b4
  let DCOw := m.a3 + 256 * m.b4
  if DCOw > ((DCOMax + 4) % 65536) / 8 then (0, data1)
  else
    let d := asmDiv FreqXtal m
    (1, { data1 with
            RFREQ_w1_b1 := d.q0, RFREQ_w1_b0 := d.q1, RFREQ_w0_b1 := d.q2, RFREQ_w0_b0 := d.q3,
            RFREQ_b4 := (d.q4 ||| ((sN1 &&& 3) <<< 6)) % 256 })

/-- The 40-bit number held in `%4:%3:%2:%1:%0` after the divide block. -/
def DivRegs.quot (s : DivRegs) : Nat :=
  s.q4 * 2 ^ 32 + s.q3 * 2 ^ 24 + s.q2 * 2 ^ 16 + s.q1 * 2 ^ 8 + s.q0

/-- The 48-bit number held in `__tmp_reg__:%1:%D0:%C0:%B0:%A0`. -/
def MulRegs.val (s : MulRegs) : Nat :=
  s.a0 + 2 ^ 8 * s.a1 + 2 ^ 16 * s.a2 + 2 ^ 24 * s.a3 + 2 ^ 32 * s.b4 + 2 ^ 40 * s.tmp

/-- Every register of the multiply block holds a byte and the carry a bit. -/
def MulRegs.wf (s : MulRegs) : Prop :=
  s.a0 < 256 ∧ s.a1 < 256 ∧ s.a2 < 256 ∧ s.a3 < 256 ∧ s.b4 < 256 ∧ s.tmp < 256 ∧ s.c ≤ 1

/-- The 32-bit number held in the remainder registers `%D6:%C6:%B6:%A6`. -/
def DivRegs.rem (s : DivRegs) : Nat :=
  s.r3 * 2 ^ 24 + s.r2 * 2 ^ 16 + s.r1 * 2 ^ 8 + s.r0

/-- Every register of the divide block holds a byte and the carry a bit. -/
def DivRegs.wf (s : DivRegs) : Prop :=
  s.q0 < 256 ∧ s.q1 < 256 ∧ s.q2 < 256 ∧ s.q3 < 256 ∧ s.q4 < 256
    ∧ s.r0 < 256 ∧ s.r1 < 256 ∧ s.r2 < 256 ∧ s.r3 < 256 ∧ s.c ≤ 1

/-- The 73-bit number `RR : %4..%0 : carry` read as one register. -/
def DivRegs.all (s : DivRegs) : Nat := s.rem * 2 ^ 41 + 2 * s.quot + s.c

/-- The decoding of a six-byte register image `b0..b5` into
`(N1, HS_DIV, fractional)` according to the register layout:
`HS_DIV = (b0 >> 5) + 4`, `N1 = (((b0 & 0x1F) << 2) | (b1 >> 6)) + 1`,
`fractional = ((b1 & 0x3F) << 32) | (b2 << 24) | (b3 << 16) | (b4 << 8) | b5`. -/
def decodeImage : List Nat → Option (Nat × Nat × Nat)
  | [b0, b1, b2, b3, b4, b5] =>
      some ((((b0 &&& 0x1F) <<< 2) ||| (b1 >>> 6)) + 1,
            (b0 >>> 5) + 4,
            ((b1 &&& 0x3F) <<< 32) ||| (b2 <<< 24) ||| (b3 <<< 16) ||| (b4 <<< 8) ||| b5)
  | _ => none

/-! ## Smooth-tune decision -/

/-- The function `Si570_Small_Change(current_Frequency)`; `FreqSmoothTune` is
the global of that name and `SmoothTunePPM` is `R.SmoothTunePPM` (16 bit).  All
arithmetic is `uint32_t`; `previous_Frequency.w1.w` is the high word. -/
def Si570_Small_Change (FreqSmoothTune SmoothTunePPM current_Frequency : Nat) : Bool :=
  -- delta_F = current_Frequency - previous_Frequency.dw
  let delta_F := (current_Frequency + 2 ^ 32 - FreqSmoothTune) % 2 ^ 32
  -- if (delta_F >= _2(31)) delta_F = 0 - delta_F
  let delta_F := if delta_F ≥ 2 ^ 31 then (2 ^ 32 - delta_F) % 2 ^ 32 else delta_F
  -- delta_F = delta_F * 15
  let delta_F := (delta_F * 15) % 2 ^ 32
  -- delta_F_MAX = (uint32_t)previous_Frequency.w1.w * R.SmoothTunePPM
  let delta_F_MAX := ((FreqSmoothTune / 65536 % 65536) * SmoothTunePPM) % 2 ^ 32
  decide (delta_F ≤ delta_F_MAX)

/-! ## Register write protocol -/

/-- What the two-wire bus sees: a start condition, a byte sent by the
controller, a stop condition, a byte received from the chip, and the
acknowledge bit the controller sends after a received byte. -/
inductive BusEvent where
  | start
  | byte (b : Nat)
  | stop
  | recv (b : Nat)
  | ackBit (b : Nat)
  deriving DecidableEq, Repr

/-- The state of the bus transport: the events issued so far, the number of
bytes sent so far, and the transport error flag `I2CErrors`. -/
structure Bus where
  trace : List BusEvent
  sent : Nat
  I2CErrors : Bool
  deriving DecidableEq, Repr

/-- Modelled from the spec: the transport primitive `I2CSendStart`, whose
source is not part of the repository sources given; it starts a transaction
and clears the transport error flag ("a readable transport-error flag cleared
at the start of each transaction"). -/
def I2CSendStart (b : Bus) : Bus :=
  { b with trace := b.trace ++ [BusEvent.start], I2CErrors := false }

/-- Modelled from the spec: the transport primitive `I2CSendByte(uint8_t)`,
whose source is not part of the repository sources given; it sends one byte
and raises the transport error flag when the byte is not acknowledged.  The
transport behaviour `nack` tells, for the `n`-th byte sent, whether it goes
unacknowledged. -/
def I2CSendByte (nack : Nat → Bool) (x : Nat) (b : Bus) : Bus :=
  { trace := b.trace ++ [BusEvent.byte (x % 256)], sent := b.sent + 1,
    I2CErrors := b.I2CErrors || nack b.sent }

/-- Modelled from the spec: the transport primitive `I2CSendStop`, whose
source is not part of the repository sources given; it ends the
transaction. -/
def I2CSendStop (b : Bus) : Bus :=
  { b with trace := b.trace ++ [BusEvent.stop] }

/-- What the write protocol reads from the configuration: `R.ChipCrtlData`,
`R.Si570RFREQIndex` and the mask macro `RFREQ_INDEX` of `main.h`. -/
structure WriteCfg where
  ChipCrtlData : Nat
  Si570RFREQIndex : Nat
  RFREQ_INDEX : Nat
  deriving DecidableEq, Repr

/-- The function `Si570CmdStart(cmd)`: start, device address with the write
bit, and the command byte when the address was acknowledged. -/
def Si570CmdStart (nack : Nat → Bool) (cfg : WriteCfg) (cmd : Nat) (b : Bus) : Bool × Bus :=
  let b1 := I2CSendStart b
  let b2 := I2CSendByte nack ((cfg.ChipCrtlData <<< 1) ||| 0) b1
  if b2.I2CErrors = false then (true, I2CSendByte nack cmd b2) else (false, b2)

/-- The function `Si570CmdReg(reg, data)`. -/
def Si570CmdReg (nack : Nat → Bool) (cfg : WriteCfg) (reg data : Nat) (b : Bus) : Bus :=
  let r := Si570CmdStart nack cfg reg b
  I2CSendStop (if r.1 then I2CSendByte nack data r.2 else r.2)

/-- The function `Si570WriteRFREQ()`: the six bytes `Si570_Data.bData[0..5]`
in one block, starting at `R.Si570RFREQIndex & RFREQ_INDEX`. -/
def Si570WriteRFREQ (nack : Nat → Bool) (cfg : WriteCfg) (data : Si570_t) (b : Bus) : Bus :=
  let r := Si570CmdStart nack cfg (cfg.Si570RFREQIndex &&& cfg.RFREQ_INDEX) b
  I2CSendStop
    (if r.1 then data.bData.foldl (fun acc x => I2CSendByte nack x acc) r.2 else r.2)

/-- The function `Si570WriteLargeChange()`. -/
def Si570WriteLargeChange (nack : Nat → Bool) (cfg : WriteCfg) (data : Si570_t) (b : Bus) :
    Bus :=
  -- Si570CmdReg(137, 1<<4)
  let b1 := Si570CmdReg nack cfg 137 (1 <<< 4) b
  if b1.I2CErrors = false then
    let b2 := Si570WriteRFREQ nack cfg data b1
    -- Si570CmdReg(137, 0<<4)
    let b3 := Si570CmdReg nack cfg 137 (0 <<< 4) b2
    -- Si570CmdReg(135, 1<<6)
    Si570CmdReg nack cfg 135 (1 <<< 6) b3
  else b1

/-- One write transaction as seen on the bus: start, the device address with
the write bit, the register index, the payload bytes, stop. -/
def writeTxn (cfg : WriteCfg) (reg : Nat) (payload : List Nat) : List BusEvent :=
  [BusEvent.start, BusEvent.byte ((cfg.ChipCrtlData * 2) % 256), BusEvent.byte (reg % 256)]
    ++ payload.map (fun x => BusEvent.byte (x % 256)) ++ [BusEvent.stop]

/-- The function `Si570WriteSmallChange()`; `RFREQ_FREEZE` is the flag macro
of `main.h` tested against `R.Si570RFREQIndex`. -/
def Si570WriteSmallChange (nack : Nat → Bool) (cfg : WriteCfg) (RFREQ_FREEZE : Nat)
    (data : Si570_t) (b : Bus) : Bus :=
  if cfg.Si570RFREQIndex &&& RFREQ_FREEZE ≠ 0 then
    -- Si570CmdReg(135, 1<<5)
    let b1 := Si570CmdReg nack cfg 135 (1 <<< 5) b
    if b1.I2CErrors = false then
      let b2 := Si570WriteRFREQ nack cfg data b1
      -- Si570CmdReg(135, 0<<5)
      Si570CmdReg nack cfg 135 (0 <<< 5) b2
    else b1
  else Si570WriteRFREQ nack cfg data b

/-! ## The entry point `SetFreq` -/

/-- The fields of the configuration `R` (and the macros of `main.h`) read by
`SetFreq` and the functions it calls. -/
structure Config where
  Si570DCOMin : Nat
  Si570DCOMax : Nat
  Si570Grade : ChipGrade
  FreqXtal : Nat
  SmoothTunePPM : Nat
  write : WriteCfg
  RFREQ_FREEZE : Nat
  deriving DecidableEq, Repr

/-- The mutable state `SetFreq` works on: `R.Freq`, the stored dividers,
`FreqSmoothTune`, `Si570_Data` and the bus. -/
structure Globals where
  Freq : Nat
  dividers : Dividers
  FreqSmoothTune : Nat
  Si570_Data : Si570_t
  bus : Bus
  deriving DecidableEq, Repr

/-- The condition `(R.SmoothTunePPM != 0) && Si570_Small_Change(freq)` of
line 469: `true` when `SetFreq` takes the small-change branch. -/
def smoothTunePath (R : Config) (g : Globals) (freq : Nat) : Bool :=
  decide (R.SmoothTunePPM ≠ 0) && Si570_Small_Change g.FreqSmoothTune R.SmoothTunePPM freq

/-- The small-change branch of `SetFreq` (lines 471-472): `Si570CalcRFREQ`,
whose return value is not used, then `Si570WriteSmallChange`. -/
def SetFreq_smallChange (nack : Nat → Bool) (R : Config) (freq : Nat) (g : Globals) :
    Globals :=
  let r := Si570CalcRFREQ R.Si570DCOMax R.FreqXtal g.dividers freq g.Si570_Data
  { g with Si570_Data := r.2,
           bus := Si570WriteSmallChange nack R.write R.RFREQ_FREEZE r.2 g.bus }

/-- The large-change branch of `SetFreq` (lines 476-480): return when
`Si570CalcDivider` or `Si570CalcRFREQ` fails, else set `FreqSmoothTune` and call
`Si570WriteLargeChange`.  `none` when `Si570CalcDivider` divides by zero. -/
def SetFreq_largeChange (nack : Nat → Bool) (R : Config) (freq : Nat) (g : Globals) :
    Option Globals :=
  match Si570CalcDivider R.Si570DCOMin R.Si570Grade freq g.dividers with
  | none => none
  | some (false, _) => some g
  | some (true, d) =>
      let r := Si570CalcRFREQ R.Si570DCOMax R.FreqXtal d freq g.Si570_Data
      if r.1 = 0 then some { g with dividers := d, Si570_Data := r.2 }
      else
        some { g with dividers := d, Si570_Data := r.2, FreqSmoothTune := freq,
                      bus := Si570WriteLargeChange nack R.write r.2 g.bus }

/-- The function `SetFreq(freq)` with `INCLUDE_SMOOTH`.  The optional stages
`INCLUDE_IBPF` and `INCLUDE_FREQ_SM` replace `freq` by the result of
`CalcFreqMulAdd` (`CalcVFO.c`, not part of the sources); they are the parameter
`xform`, the identity when both are compiled out.  The filter pins driven
under `INCLUDE_IBPF` / `INCLUDE_ABPF` are not part of the state. -/
def SetFreq (nack : Nat → Bool) (R : Config) (xform : Nat → Nat) (freq : Nat)
    (g : Globals) : Option Globals :=
  -- R.Freq = freq
  let g1 := { g with Freq := freq }
  let freq1 := xform freq
  if smoothTunePath R g1 freq1 = true then some (SetFreq_smallChange nack R freq1 g1)
  else SetFreq_largeChange nack R freq1 g1

/-- The transactions of a bus trace: for each start .. stop bracket, the
bytes the controller sent in it, in order. -/
def transactionsFrom : List BusEvent → List Nat → List (List Nat)
  | [], _ => []
  | BusEvent.start :: es, _ => transactionsFrom es []
  | BusEvent.byte x :: es, cur => transactionsFrom es (cur ++ [x])
  | BusEvent.stop :: es, cur => cur :: transactionsFrom es []
  | BusEvent.recv _ :: es, cur => transactionsFrom es cur
  | BusEvent.ackBit _ :: es, cur => transactionsFrom es cur

/-- The transactions of a whole trace. -/
def transactions (t : List BusEvent) : List (List Nat) := transactionsFrom t []

/-- A transaction `[address, register, payload..]` is a write to register
`reg`. -/
def writesRegister (reg : Nat) (t : List Nat) : Prop := (t.drop 1).head? = some reg

instance (reg : Nat) (t : List Nat) : Decidable (writesRegister reg t) := by
  unfold writesRegister; infer_instance

/-! ## Chip variant auto-detection -/

/-- The index macros of `main.h` used by the auto-detection; their values are
not part of the sources. -/
structure IndexMacros where
  RFREQ_FREEZE : Nat
  RFREQ_7_INDEX : Nat
  RFREQ_13_INDEX : Nat
  RFREQ_AUTO_INDEX : Nat
  deriving DecidableEq, Repr

/-- Modelled from the spec: the transport primitive `I2CReceiveByte`, whose
source is not part of the repository sources given; `v` is the byte the chip
delivers. -/
def I2CReceiveByte (v : Nat) (b : Bus) : Nat × Bus :=
  (v % 256, { b with trace := b.trace ++ [BusEvent.recv (v % 256)] })

/-- Modelled from the spec: the transport primitive `I2CSend0` (acknowledge:
more bytes to follow), whose source is not part of the repository sources
given. -/
def I2CSend0 (b : Bus) : Bus := { b with trace := b.trace ++ [BusEvent.ackBit 0] }

/-- Modelled from the spec: the transport primitive `I2CSend1` (no
acknowledge: last byte), whose source is not part of the repository sources
given. -/
def I2CSend1 (b : Bus) : Bus := { b with trace := b.trace ++ [BusEvent.ackBit 1] }

/-- Modelled from the spec: storing six bytes through the byte view
`Si570_Data.bData[0..5]` of the union `Si570_t` (declared in `main.h`), the
inverse of `Si570_t.bData`. -/
def Si570_t.ofBytes (b0 b1 b2 b3 b4 b5 : Nat) : Si570_t :=
  { N1 := b0 % 32, HS_DIV := b0 / 32 % 8, RFREQ_b4 := b1,
    RFREQ_w0_b0 := b2, RFREQ_w0_b1 := b3, RFREQ_w1_b0 := b4, RFREQ_w1_b1 := b5 }

/-- The function `Si570ReadRFREQ(index)`: the returned value (0 or
`sizeof(Si570_t)`, which is 6), `Si570_Data` and the bus after the call.  `rx i`
is the byte the chip delivers for `bData[i]`. -/
def Si570ReadRFREQ (nack : Nat → Bool) (rx : Nat → Nat) (cfg : WriteCfg) (index : Nat)
    (data : Si570_t) (b : Bus) : Nat × Si570_t × Bus :=
  let r := Si570CmdStart nack cfg (index &&& cfg.RFREQ_INDEX) b
  if r.1 then
    let b1 := I2CSendStart r.2
    let b2 := I2CSendByte nack ((cfg.ChipCrtlData <<< 1) ||| 1) b1
    -- for (i=0; i<5; i++) { bData[i] = I2CReceiveByte(); I2CSend0(); }
    let r0 := I2CReceiveByte (rx 0) b2
    let r1 := I2CReceiveByte (rx 1) (I2CSend0 r0.2)
    let r2 := I2CReceiveByte (rx 2) (I2CSend0 r1.2)
    let r3 := I2CReceiveByte (rx 3) (I2CSend0 r2.2)
    let r4 := I2CReceiveByte (rx 4) (I2CSend0 r3.2)
    -- bData[5] = I2CReceiveByte(); I2CSend1();
    let r5 := I2CReceiveByte (rx 5) (I2CSend0 r4.2)
    let b3 := I2CSendStop (I2CSend1 r5.2)
    (if b3.I2CErrors then 0 else 6, Si570_t.ofBytes r0.1 r1.1 r2.1 r3.1 r4.1 r5.1, b3)
  else
    let b3 := I2CSendStop r.2
    (if b3.I2CErrors then 0 else 6, data, b3)

/-- The table `signature[]` of `Check_Signature`. -/
def signature : List Nat := [0x07, 0xC2, 0xC0, 0x00, 0x00, 0x00]

/-- The comparison loop of `Check_Signature`: the index `i` at which
`for(i = 0; i < sizeof(signature); ++i) if (signature[i] != bData[i]) break;`
stops. -/
def signatureLoop : List Nat → List Nat → Nat
  | s :: ss, d :: ds => if s ≠ d then 0 else 1 + signatureLoop ss ds
  | _, _ => 0

/-- The function `Check_Signature()`: the returned flag, `Si570_Data` and the
bus after the call. -/
def Check_Signature (nack : Nat → Bool) (rx : Nat → Nat) (cfg : WriteCfg) (m : IndexMacros)
    (data : Si570_t) (b : Bus) : Bool × Si570_t × Bus :=
  let r := Si570ReadRFREQ nack rx cfg m.RFREQ_13_INDEX data b
  if r.1 = 0 then (true, r.2.1, r.2.2)
  else (decide (signatureLoop signature r.2.1.bData = 6), r.2.1, r.2.2)

/-- The function `Auto_index_detect_RFREQ()`: the new value of
`R.Si570RFREQIndex` (8 bit), `Si570_Data` and the bus after the call.  The
`_delay_us(100.0)` between recall and read is real time and leaves no trace in
the state. -/
def Auto_index_detect_RFREQ (nack : Nat → Bool) (rx : Nat → Nat) (cfg : WriteCfg)
    (m : IndexMacros) (data : Si570_t) (b : Bus) : Nat × Si570_t × Bus :=
  if cfg.Si570RFREQIndex &&& cfg.RFREQ_INDEX = m.RFREQ_AUTO_INDEX then
    -- Si570CmdReg(135, 0x01)
    let b1 := Si570CmdReg nack cfg 135 0x01 b
    let r := Check_Signature nack rx cfg m data b1
    if r.1 then
      (((cfg.Si570RFREQIndex &&& m.RFREQ_FREEZE) ||| m.RFREQ_7_INDEX) % 256, r.2.1, r.2.2)
    else
      (((cfg.Si570RFREQIndex &&& m.RFREQ_FREEZE) ||| m.RFREQ_13_INDEX) % 256, r.2.1, r.2.2)
  else (cfg.Si570RFREQIndex, data, b)

/-- The value assigned to `xN1.w` at line 76, before the even-rounding step:
`N0 / xHS_DIV + 1` in 16 bits. -/
def xN1_w (N0 xHS_DIV : Nat) : Nat := (N0 / xHS_DIV + 1) % 65536

/-- Scenario B for a configuration `R` without offset/multiply stage and a
transport without errors: from the unset state, `SetFreq(f1)` succeeds with
state `g1`, `SetFreq(f2)` then succeeds with state `g2` through the
small-change branch, the dividers and `FreqSmoothTune` of `g2` are those set by
the first request, and the events `T2` the second call adds to the bus hold no
write to register 137 and no write of `0x40` to register 135. -/
def ScenarioB (R : Config) (f1 f2 : Nat) : Prop :=
  ∃ g1 g2 T2,
    SetFreq (fun _ => false) R id f1
        ⟨0, ⟨0, 0, 0⟩, 0, ⟨0, 0, 0, 0, 0, 0, 0⟩, ⟨[], 0, false⟩⟩ = some g1
      ∧ SetFreq (fun _ => false) R id f2 g1 = some g2
      ∧ smoothTunePath R { g1 with Freq := f2 } f2 = true
      ∧ g2 = SetFreq_smallChange (fun _ => false) R f2 { g1 with Freq := f2 }
      ∧ g2.dividers = g1.dividers
      ∧ g1.FreqSmoothTune = f1 ∧ g2.FreqSmoothTune = f1
      ∧ g2.bus.trace = g1.bus.trace ++ T2
      ∧ ∀ t ∈ transactions T2, ¬ writesRegister 137 t ∧ t.drop 1 ≠ [135, 0x40]

/-! # Lemmas -/


/-! ### Lemmas on the chip variant auto-detection -/

theorem cmdStart_false (nack : Nat → Bool) (cfg : WriteCfg) (cmd : Nat) (b : Bus)
    (h : (Si570CmdStart nack cfg cmd b).1 = false) :
    (Si570CmdStart nack cfg cmd b).2.I2CErrors = true := by
  unfold Si570CmdStart at h ⊢
  simp only [] at h ⊢
  split_ifs at h ⊢ with hc
  simpa using hc

theorem bData_ofBytes (b0 b1 b2 b3 b4 b5 : Nat) (h0 : b0 < 256) :
    (Si570_t.ofBytes b0 b1 b2 b3 b4 b5).bData = [b0, b1, b2, b3, b4, b5] := by
  simp only [Si570_t.ofBytes, Si570_t.bData]
  congr 1
  omega

/-- A read that reports success has stored the six delivered bytes. -/
theorem readRFREQ_data (nack : Nat → Bool) (rx : Nat → Nat) (cfg : WriteCfg) (index : Nat)
    (data : Si570_t) (b : Bus)
    (h : (Si570ReadRFREQ nack rx cfg index data b).1 ≠ 0) :
    (Si570ReadRFREQ nack rx cfg index data b).2.1.bData
      = [rx 0 % 256, rx 1 % 256, rx 2 % 256, rx 3 % 256, rx 4 % 256, rx 5 % 256] := by
  unfold Si570ReadRFREQ at h ⊢
  simp only [] at h ⊢
  cases hs : (Si570CmdStart nack cfg (index &&& cfg.RFREQ_INDEX) b).1 with
  | false =>
    have he := cmdStart_false nack cfg _ b hs
    rw [hs] at h
    simp [I2CSendStop, he] at h
  | true =>
    simp only [if_true, I2CReceiveByte]
    exact bData_ofBytes _ _ _ _ _ _ (Nat.mod_lt _ (by norm_num))

/-- The comparison loop runs to `i = 6` exactly when the six bytes are the
signature. -/
theorem signatureLoop_six (x0 x1 x2 x3 x4 x5 : Nat) :
    signatureLoop signature [x0, x1, x2, x3, x4, x5] = 6
      ↔ [x0, x1, x2, x3, x4, x5] = [0x07, 0xC2, 0xC0, 0x00, 0x00, 0x00] := by
  simp only [signature, signatureLoop]
  constructor
  · intro h
    split_ifs at h <;> first | omega | simp_all
  · intro h
    injection h with h0 h
    injection h with h1 h
    injection h with h2 h
    injection h with h3 h
    injection h with h4 h
    injection h with h5 h
    subst h0 h1 h2 h3 h4 h5
    simp

/-- Keeping only the freeze bit and setting index bits that are disjoint from
it leaves the freeze bit as it was. -/
theorem freeze_bit_kept (idx F sel : Nat) (hidx : idx < 256) (hsel : sel < 256)
    (hdisj : sel &&& F = 0) :
    (((idx &&& F) ||| sel) % 256) &&& F = idx &&& F := by
  have h1 : idx &&& F < 2 ^ 8 := lt_of_le_of_lt Nat.and_le_left hidx
  have h2 : (idx &&& F) ||| sel < 2 ^ 8 := Nat.or_lt_two_pow h1 hsel
  have h3 : (idx &&& F) ||| sel < 256 := h2
  rw [Nat.mod_eq_of_lt h3, Nat.and_comm, Nat.and_or_distrib_left, Nat.and_comm F sel, hdisj,
    Nat.or_zero, Nat.and_comm F (idx &&& F), Nat.and_assoc, Nat.and_self]
/-! ### Lemmas on the divider solver -/

theorem gradeSkip_iff (grade : ChipGrade) (b h : Nat) :
    gradeSkip grade b h = true ↔ (b, h) ∈ forbiddenPairs grade := by
  cases grade <;> simp [gradeSkip, forbiddenPairs, or_assoc]

theorem calcN0_lt {DCOMin freq N0 : Nat} (h : calcN0 DCOMin freq = some N0) :
    N0 < 65536 := by
  unfold calcN0 at h
  simp only at h
  split at h
  · cases h
  · injection h with h
    subst h
    exact lt_of_le_of_lt (Nat.div_le_self _ _) (Nat.mod_lt _ (by norm_num))

theorem divBody_skip (grade : ChipGrade) (N0 : Nat) (s : Found) (h : Nat)
    (hh : h = 8 ∨ h = 10) : divBody grade N0 s h = s := by
  unfold divBody
  simp [hh]

theorem hsDivs_bounds {h : Nat} (hh : h ∈ hsDivs) :
    4 ≤ h ∧ h ≤ 11 ∧ h ≠ 8 ∧ h ≠ 10 := by
  simp only [hsDivs, List.mem_cons, List.mem_singleton, List.mem_nil_iff, or_false] at hh
  omega

theorem candN1_le {N0 h : Nat} (hn : N0 / h + 1 ≤ 128) :
    1 ≤ candN1 N0 h ∧ candN1 N0 h ≤ 128 ∧ N0 / h + 1 ≤ candN1 N0 h
      ∧ (candN1 N0 h = 1 ∨ candN1 N0 h % 2 = 0) := by
  unfold candN1
  generalize N0 / h = q at hn ⊢
  split_ifs with hc <;> omega

theorem divBody_eq (grade : ChipGrade) (N0 : Nat) (s : Found) (h : Nat)
    (hN0 : N0 < 65536) (hh : h ∈ hsDivs) :
    divBody grade N0 s h =
      if validCand grade N0 h ∧ candN N0 h < s.sN then
        { sHS_DIV := h, sN1 := candN1 N0 h, sN := candN N0 h }
      else s := by
  obtain ⟨h4, h11, h8, h10⟩ := hsDivs_bounds hh
  have hdiv : N0 / h ≤ N0 := Nat.div_le_self _ _
  have hne : ¬ (h = 8 ∨ h = 10) := by omega
  have hmod : (N0 / h + 1) % 65536 = N0 / h + 1 := by
    have : N0 / h * h ≤ N0 := Nat.div_mul_le_self _ _
    have : N0 / h * 4 ≤ N0 / h * h := Nat.mul_le_mul_left _ h4
    omega
  unfold divBody
  rw [if_neg hne]
  simp only [hmod]
  by_cases hbig : N0 / h + 1 > 128
  · rw [if_pos hbig, if_neg]
    rintro ⟨⟨hv, -⟩, -⟩
    omega
  · rw [if_neg hbig]
    have hle : N0 / h + 1 ≤ 128 := by omega
    have hround : (if (N0 / h + 1) % 256 ≠ 1 ∧ (N0 / h + 1) % 256 &&& 1 = 1
        then ((N0 / h + 1) % 256 + 1) % 256 else (N0 / h + 1) % 256) = candN1 N0 h := by
      have h256 : (N0 / h + 1) % 256 = N0 / h + 1 := by omega
      rw [h256, Nat.and_one_is_mod]
      unfold candN1
      by_cases hodd : (N0 / h + 1) % 2 = 1 ∧ N0 / h + 1 ≠ 1
      · rw [if_pos hodd, if_pos ⟨hodd.2, hodd.1⟩]
        omega
      · rw [if_neg hodd, if_neg (fun hc => hodd ⟨hc.2, hc.1⟩)]
    rw [hround]
    obtain ⟨-, hc128, -, -⟩ := candN1_le hle
    have hxN : (h * candN1 N0 h) % 65536 = candN N0 h := by
      unfold candN
      have : candN1 N0 h * h ≤ 128 * 11 := Nat.mul_le_mul hc128 h11
      rw [Nat.mul_comm]
      omega
    rw [hxN]
    by_cases hskip : gradeSkip grade (candN1 N0 h) h = true
    · rw [if_pos hskip, if_neg]
      rintro ⟨⟨-, hv⟩, -⟩
      exact hv ((gradeSkip_iff _ _ _).1 hskip)
    · rw [if_neg hskip]
      have hvalid : validCand grade N0 h :=
        ⟨hle, fun hmem => hskip ((gradeSkip_iff _ _ _).2 hmem)⟩
      by_cases hlt : candN N0 h < s.sN
      · rw [if_pos hlt, if_pos ⟨hvalid, hlt⟩]
      · rw [if_neg hlt, if_neg (fun hc => hlt hc.2)]

theorem searchInv_step (grade : ChipGrade) (N0 : Nat) (hN0 : N0 < 65536)
    (proc : List Nat) (s : Found) (h : Nat)
    (hinv : SearchInv grade N0 proc s) (hdesc : ∀ p ∈ proc, h < p)
    (hh : h ∈ hsDivs ∨ h = 8 ∨ h = 10) :
    SearchInv grade N0 (proc ++ [h]) (divBody grade N0 s h) := by
  rcases hh with hh | hh
  · rw [divBody_eq grade N0 s h hN0 hh]
    by_cases hc : validCand grade N0 h ∧ candN N0 h < s.sN
    · rw [if_pos hc]
      obtain ⟨hv, hlt⟩ := hc
      refine Or.inr ⟨hh, by simp, hv, rfl, rfl, ?_, ?_⟩
      · rcases hinv with ⟨-, hs, -⟩ | ⟨-, -, -, -, -, hs, -⟩ <;> simp only [] <;> omega
      · intro h1 h1mem h1div h1v
        simp only [List.mem_append, List.mem_singleton] at h1mem
        rcases h1mem with h1mem | rfl
        · left
          rcases hinv with ⟨-, hs, hall⟩ | ⟨-, -, -, -, -, -, hall⟩
          · have := hall h1 h1mem h1div h1v
            simp only []
            omega
          · have := hall h1 h1mem h1div h1v
            simp only []
            omega
        · right
          exact ⟨rfl, le_refl _⟩
    · rw [if_neg hc]
      rcases hinv with ⟨h0, hs, hall⟩ | ⟨hm, hp, hv, hn1, hn, hs, hall⟩
      · refine Or.inl ⟨h0, hs, ?_⟩
        intro h1 h1mem h1div h1v
        simp only [List.mem_append, List.mem_singleton] at h1mem
        rcases h1mem with h1mem | rfl
        · exact hall h1 h1mem h1div h1v
        · by_contra hcon
          exact hc ⟨h1v, by omega⟩
      · refine Or.inr ⟨hm, by simp [hp], hv, hn1, hn, hs, ?_⟩
        intro h1 h1mem h1div h1v
        simp only [List.mem_append, List.mem_singleton] at h1mem
        rcases h1mem with h1mem | rfl
        · exact hall h1 h1mem h1div h1v
        · have hle : h1 ≤ s.sHS_DIV := le_of_lt (hdesc _ hp)
          by_cases hlt : s.sN < candN N0 h1
          · exact Or.inl hlt
          · have hnl : ¬ candN N0 h1 < s.sN := fun hx => hc ⟨h1v, hx⟩
            exact Or.inr ⟨by omega, hle⟩
  · rw [divBody_skip grade N0 s h hh]
    have hnot : h ∉ hsDivs := by
      intro hm
      have := hsDivs_bounds hm
      omega
    rcases hinv with ⟨h0, hs, hall⟩ | ⟨hm, hp, hv, hn1, hn, hs, hall⟩
    · refine Or.inl ⟨h0, hs, ?_⟩
      intro h1 h1mem h1div h1v
      simp only [List.mem_append, List.mem_singleton] at h1mem
      rcases h1mem with h1mem | rfl
      · exact hall h1 h1mem h1div h1v
      · exact absurd h1div hnot
    · refine Or.inr ⟨hm, by simp [hp], hv, hn1, hn, hs, ?_⟩
      intro h1 h1mem h1div h1v
      simp only [List.mem_append, List.mem_singleton] at h1mem
      rcases h1mem with h1mem | rfl
      · exact hall h1 h1mem h1div h1v
      · exact absurd h1div hnot

theorem divSearch_inv (grade : ChipGrade) (N0 : Nat) (hN0 : N0 < 65536) :
    SearchInv grade N0 hsRange (divSearch grade N0) := by
  have h0 : SearchInv grade N0 [] { sHS_DIV := 0, sN1 := 0, sN := 11 * 128 } :=
    Or.inl ⟨rfl, rfl, fun h hm => absurd hm (List.not_mem_nil h)⟩
  have h1 := searchInv_step grade N0 hN0 _ _ 11 h0 (by simp) (by simp [hsDivs])
  have h2 := searchInv_step grade N0 hN0 _ _ 10 h1 (by simp) (by simp [hsDivs])
  have h3 := searchInv_step grade N0 hN0 _ _ 9 h2 (by simp) (by simp [hsDivs])
  have h4 := searchInv_step grade N0 hN0 _ _ 8 h3 (by simp) (by simp [hsDivs])
  have h5 := searchInv_step grade N0 hN0 _ _ 7 h4 (by simp) (by simp [hsDivs])
  have h6 := searchInv_step grade N0 hN0 _ _ 6 h5 (by simp) (by simp [hsDivs])
  have h7 := searchInv_step grade N0 hN0 _ _ 5 h6 (by simp) (by simp [hsDivs])
  have h8 := searchInv_step grade N0 hN0 _ _ 4 h7 (by simp) (by simp [hsDivs])
  exact h8

/-- What a successful call stores: the saved candidate is a valid candidate
below the sentinel total, no valid candidate is strictly smaller, and among
equal totals it has the largest `HS_DIV`. -/
theorem calcDivider_true {DCOMin : Nat} {grade : ChipGrade} {freq : Nat} {g g1 : Dividers}
    (h : Si570CalcDivider DCOMin grade freq g = some (true, g1)) :
    ∃ N0, calcN0 DCOMin freq = some N0 ∧ N0 < 65536
      ∧ g1.Si570_HS_DIV ∈ hsDivs ∧ validCand grade N0 g1.Si570_HS_DIV
      ∧ g1.Si570_N1 = candN1 N0 g1.Si570_HS_DIV
      ∧ g1.Si570_N = candN N0 g1.Si570_HS_DIV
      ∧ g1.Si570_N < 11 * 128
      ∧ ∀ h ∈ hsDivs, validCand grade N0 h →
          g1.Si570_N < candN N0 h ∨ (g1.Si570_N = candN N0 h ∧ h ≤ g1.Si570_HS_DIV) := by
  unfold Si570CalcDivider at h
  cases hN : calcN0 DCOMin freq with
  | none => rw [hN] at h; cases h
  | some N0 =>
    rw [hN] at h
    simp only at h
    have hlt := calcN0_lt hN
    have hinv := divSearch_inv grade N0 hlt
    by_cases hz : (divSearch grade N0).sHS_DIV = 0
    · rw [if_pos hz] at h
      cases h
    · rw [if_neg hz] at h
      injection h with h
      injection h with _ h
      subst h
      rcases hinv with ⟨h0, -, -⟩ | ⟨hm, -, hv, hn1, hn, hs, hall⟩
      · exact absurd h0 hz
      · refine ⟨N0, rfl, hlt, hm, hv, hn1, hn, hs, ?_⟩
        intro h1 h1div h1v
        have hmem : h1 ∈ hsRange := by
          simp only [hsDivs, List.mem_cons, List.mem_singleton, List.mem_nil_iff,
            or_false] at h1div
          simp only [hsRange, List.mem_cons, List.mem_singleton, List.mem_nil_iff, or_false]
          omega
        exact hall h1 hmem h1div h1v


/-- When `N0` is defined, the solver returns false exactly when every valid
candidate has the sentinel total `11*128` (or there is none). -/
theorem calcDivider_false_iff {DCOMin : Nat} {grade : ChipGrade} {freq N0 : Nat} (g : Dividers)
    (hN0 : calcN0 DCOMin freq = some N0) :
    Si570CalcDivider DCOMin grade freq g = some (false, g)
      ↔ ∀ h ∈ hsDivs, validCand grade N0 h → 11 * 128 ≤ candN N0 h := by
  have hlt := calcN0_lt hN0
  have hinv := divSearch_inv grade N0 hlt
  have hsub : ∀ h ∈ hsDivs, h ∈ hsRange := by
    intro h hh
    simp only [hsDivs, List.mem_cons, List.mem_singleton, List.mem_nil_iff, or_false] at hh
    simp only [hsRange, List.mem_cons, List.mem_singleton, List.mem_nil_iff, or_false]
    omega
  unfold Si570CalcDivider
  rw [hN0]
  simp only []
  by_cases hz : (divSearch grade N0).sHS_DIV = 0
  · rw [if_pos hz]
    refine ⟨fun _ => ?_, fun _ => rfl⟩
    rcases hinv with ⟨-, -, hall⟩ | ⟨hm, -, -, -, -, -, -⟩
    · exact fun h hh hv => hall h (hsub h hh) hh hv
    · rw [hz] at hm
      have := hsDivs_bounds hm
      omega
  · rw [if_neg hz]
    constructor
    · intro h
      injection h with h
      injection h with h1 _
      cases h1
    · intro hall
      rcases hinv with ⟨h0, -, -⟩ | ⟨hm, hp, hv, -, hn, hs, -⟩
      · exact absurd h0 hz
      · have := hall _ hm hv
        omega

/-- The value tested against 128 and then rounded in the loop body is
`xN1_w`. -/
theorem divBody_xN1_w (grade : ChipGrade) (N0 : Nat) (s : Found) (h : Nat) :
    divBody grade N0 s h =
      if h = 8 ∨ h = 10 then s
      else if xN1_w N0 h > 128 then s
      else if gradeSkip grade
          (if xN1_w N0 h % 256 ≠ 1 ∧ xN1_w N0 h % 256 &&& 1 = 1
            then (xN1_w N0 h % 256 + 1) % 256 else xN1_w N0 h % 256) h then s
      else if s.sN > (h * (if xN1_w N0 h % 256 ≠ 1 ∧ xN1_w N0 h % 256 &&& 1 = 1
            then (xN1_w N0 h % 256 + 1) % 256 else xN1_w N0 h % 256)) % 65536 then
        { sHS_DIV := h,
          sN1 := (if xN1_w N0 h % 256 ≠ 1 ∧ xN1_w N0 h % 256 &&& 1 = 1
            then (xN1_w N0 h % 256 + 1) % 256 else xN1_w N0 h % 256),
          sN := (h * (if xN1_w N0 h % 256 ≠ 1 ∧ xN1_w N0 h % 256 &&& 1 = 1
            then (xN1_w N0 h % 256 + 1) % 256 else xN1_w N0 h % 256)) % 65536 }
      else s := rfl

/-! ### The multiply block computes `Si570_N * freq` -/

theorem asmLoop_succ {σ : Type} (body : σ → σ) (n : Nat) (s : σ) :
    asmLoop body (n + 1) s = body (asmLoop body n s) := by
  induction n generalizing s with
  | zero => rfl
  | succ n ih =>
    show asmLoop body (n + 1) (body s) = body (asmLoop body (n + 1) s)
    rw [ih (body s)]
    rfl

theorem mulBody_spec (nl nh : Nat) (s : MulRegs) (hnl : nl < 256) (hnh : nh < 256)
    (hs : s.wf) :
    (mulBody nl nh s).wf ∧
      2 * (mulBody nl nh s).val + (mulBody nl nh s).c
        = s.val + s.c * ((nl + 256 * nh) * 2 ^ 32) := by
  obtain ⟨h0, h1, h2, h3, h4, ht, hc⟩ := hs
  have hc01 : s.c = 0 ∨ s.c = 1 := by omega
  rcases hc01 with hc0 | hc1
  · simp only [mulBody, MulRegs.wf, MulRegs.val, avr_ror, avr_add, avr_adc, hc0, if_true]
    refine ⟨⟨?_, ?_, ?_, ?_, ?_, ?_, ?_⟩, ?_⟩ <;> omega
  · simp only [mulBody, MulRegs.wf, MulRegs.val, avr_ror, avr_add, avr_adc, hc1,
      one_ne_zero, if_false]
    refine ⟨⟨?_, ?_, ?_, ?_, ?_, ?_, ?_⟩, ?_⟩ <;> omega

theorem mul_loop_inv (N freq : Nat) (hf : freq < 2 ^ 32) (j : Nat) :
    ∀ e, j + e = 32 →
      (asmLoop (mulBody (N % 256) (N / 256 % 256)) (j + 1) (mulInit freq)).wf
      ∧ 2 * (asmLoop (mulBody (N % 256) (N / 256 % 256)) (j + 1) (mulInit freq)).val
        + (asmLoop (mulBody (N % 256) (N / 256 % 256)) (j + 1) (mulInit freq)).c
        = freq / 2 ^ j + (N % 65536) * (freq % 2 ^ j) * 2 ^ (e + 1) := by
  have hnl : N % 256 < 256 := Nat.mod_lt _ (by norm_num)
  have hnh : N / 256 % 256 < 256 := Nat.mod_lt _ (by norm_num)
  have hN : N % 256 + 256 * (N / 256 % 256) = N % 65536 := by omega
  induction j with
  | zero =>
    intro e _
    have hwf : (mulInit freq).wf := by
      simp only [MulRegs.wf, mulInit]
      omega
    obtain ⟨h1, h2⟩ := mulBody_spec _ _ _ hnl hnh hwf
    refine ⟨h1, ?_⟩
    show 2 * (mulBody _ _ _).val + (mulBody _ _ _).c = _
    rw [h2]
    simp only [MulRegs.val, mulInit, Nat.pow_zero, Nat.mod_one, Nat.div_one, Nat.mul_zero, Nat.zero_mul]
    omega
  | succ j ih =>
    intro e he
    obtain ⟨hwf, hval⟩ := ih (e + 1) (by omega)
    rw [asmLoop_succ]
    generalize asmLoop (mulBody (N % 256) (N / 256 % 256)) (j + 1) (mulInit freq) = s at hwf hval
    obtain ⟨h1, h2⟩ := mulBody_spec _ _ _ hnl hnh hwf
    refine ⟨h1, ?_⟩
    rw [h2, hN]
    have hc : s.c ≤ 1 := hwf.2.2.2.2.2.2
    have hdiv : freq / 2 ^ (j + 1) = freq / 2 ^ j / 2 := by
      rw [Nat.pow_succ, Nat.div_div_eq_div_mul]
    have hmod : freq % 2 ^ (j + 1) = freq % 2 ^ j + 2 ^ j * (freq / 2 ^ j % 2) :=
      Nat.mod_pow_succ
    have hpow : 2 ^ j * 2 ^ (e + 1) = 2 ^ 32 := by
      rw [← Nat.pow_add]
      congr 1
      omega
    have hT : (N % 65536) * (freq % 2 ^ j) * 2 ^ (e + 1 + 1)
        = 2 * ((N % 65536) * (freq % 2 ^ j) * 2 ^ (e + 1)) := by
      rw [Nat.pow_succ]
      ring
    rw [hT] at hval
    rw [hdiv, hmod]
    have hexp : (N % 65536) * (freq % 2 ^ j + 2 ^ j * (freq / 2 ^ j % 2)) * 2 ^ (e + 1)
        = (N % 65536) * (freq % 2 ^ j) * 2 ^ (e + 1)
          + (freq / 2 ^ j % 2) * ((N % 65536) * 2 ^ 32) := by
      rw [← hpow]
      ring
    rw [hexp]
    generalize (N % 65536) * (freq % 2 ^ j) * 2 ^ (e + 1) = T at hval ⊢
    generalize freq / 2 ^ j = a at hval ⊢
    have hval' : s.val = a / 2 + T ∧ s.c = a % 2 := by omega
    rw [hval'.1, hval'.2]
    omega

/-- The multiply block leaves the low 40 bits of `Si570_N * freq` in
`RFREQ_b4:RFREQ.dw` (and bits 40..47 in `__tmp_reg__`, which is dropped). -/
theorem asmMul_spec (N freq : Nat) (hN : N < 2 ^ 16) (hf : freq < 2 ^ 32) :
    (asmMul N freq).wf ∧ (asmMul N freq).val = N * freq := by
  obtain ⟨hwf, hval⟩ := mul_loop_inv N freq hf 32 0 rfl
  have hmodN : N % 65536 = N := Nat.mod_eq_of_lt (by omega)
  have hmodf : freq % 2 ^ 32 = freq := Nat.mod_eq_of_lt hf
  have hdivf : freq / 2 ^ 32 = 0 := Nat.div_eq_of_lt hf
  rw [hmodN, hmodf, hdivf] at hval
  unfold asmMul
  refine ⟨hwf, ?_⟩
  have hc := hwf.2.2.2.2.2.2
  omega

/-! ### The divide block computes the rounded quotient -/

theorem avr_rol_spec (q c : Nat) (hq : q < 256) (hc : c ≤ 1) :
    (avr_rol q c).1 < 256 ∧ (avr_rol q c).2 ≤ 1
      ∧ (avr_rol q c).1 + 256 * (avr_rol q c).2 = 2 * q + c := by
  simp only [avr_rol]
  omega

theorem avr_sub_spec (a x : Nat) (ha : a < 256) (hx : x < 256) :
    (avr_sub a x).1 < 256 ∧ (avr_sub a x).2 ≤ 1
      ∧ (avr_sub a x).1 + x = a + 256 * (avr_sub a x).2 := by
  simp only [avr_sub]
  split_ifs <;> omega

theorem avr_sbc_spec (a x c : Nat) (ha : a < 256) (hx : x < 256) (hc : c ≤ 1) :
    (avr_sbc a x c).1 < 256 ∧ (avr_sbc a x c).2 ≤ 1
      ∧ (avr_sbc a x c).1 + x + c = a + 256 * (avr_sbc a x c).2 := by
  simp only [avr_sbc]
  split_ifs <;> omega

theorem avr_add_spec (a x : Nat) (ha : a < 256) (hx : x < 256) :
    (avr_add a x).1 < 256 ∧ (avr_add a x).2 ≤ 1
      ∧ (avr_add a x).1 + 256 * (avr_add a x).2 = a + x := by
  simp only [avr_add]
  omega

theorem avr_adc_spec (a x c : Nat) (ha : a < 256) (hx : x < 256) (hc : c ≤ 1) :
    (avr_adc a x c).1 < 256 ∧ (avr_adc a x c).2 ≤ 1
      ∧ (avr_adc a x c).1 + 256 * (avr_adc a x c).2 = a + x + c := by
  simp only [avr_adc]
  omega

theorem divStep_spec (x0 x1 x2 x3 : Nat) (s : DivRegs)
    (hx0 : x0 < 256) (hx1 : x1 < 256) (hx2 : x2 < 256) (hx3 : x3 < 128)
    (hs : s.wf) (hrem : s.rem < x3 * 2 ^ 24 + x2 * 2 ^ 16 + x1 * 2 ^ 8 + x0) :
    (divStep x0 x1 x2 x3 s).wf
      ∧ (divStep x0 x1 x2 x3 s).rem < x3 * 2 ^ 24 + x2 * 2 ^ 16 + x1 * 2 ^ 8 + x0
      ∧ (divStep x0 x1 x2 x3 s).all =
          if (x3 * 2 ^ 24 + x2 * 2 ^ 16 + x1 * 2 ^ 8 + x0) * 2 ^ 41 ≤ 2 * s.all then
            2 * s.all - ((x3 * 2 ^ 24 + x2 * 2 ^ 16 + x1 * 2 ^ 8 + x0) * 2 ^ 41 - 1)
          else 2 * s.all := by
  obtain ⟨h0, h1, h2, h3, h4, h5, h6, h7, h8, hc⟩ := hs
  simp only [DivRegs.rem] at hrem
  simp only [divStep]
  obtain ⟨a0, b0, e0⟩ := avr_rol_spec s.q0 s.c h0 hc
  generalize avr_rol s.q0 s.c = l0 at a0 b0 e0 ⊢
  obtain ⟨a1, b1, e1⟩ := avr_rol_spec s.q1 l0.2 h1 b0
  generalize avr_rol s.q1 l0.2 = l1 at a1 b1 e1 ⊢
  obtain ⟨a2, b2, e2⟩ := avr_rol_spec s.q2 l1.2 h2 b1
  generalize avr_rol s.q2 l1.2 = l2 at a2 b2 e2 ⊢
  obtain ⟨a3, b3, e3⟩ := avr_rol_spec s.q3 l2.2 h3 b2
  generalize avr_rol s.q3 l2.2 = l3 at a3 b3 e3 ⊢
  obtain ⟨a4, b4, e4⟩ := avr_rol_spec s.q4 l3.2 h4 b3
  generalize avr_rol s.q4 l3.2 = l4 at a4 b4 e4 ⊢
  obtain ⟨c0, d0, f0⟩ := avr_rol_spec s.r0 l4.2 h5 b4
  generalize avr_rol s.r0 l4.2 = m0 at c0 d0 f0 ⊢
  obtain ⟨c1, d1, f1⟩ := avr_rol_spec s.r1 m0.2 h6 d0
  generalize avr_rol s.r1 m0.2 = m1 at c1 d1 f1 ⊢
  obtain ⟨c2, d2, f2⟩ := avr_rol_spec s.r2 m1.2 h7 d1
  generalize avr_rol s.r2 m1.2 = m2 at c2 d2 f2 ⊢
  obtain ⟨c3, d3, f3⟩ := avr_rol_spec s.r3 m2.2 h8 d2
  generalize avr_rol s.r3 m2.2 = m3 at c3 d3 f3 ⊢
  obtain ⟨i0, j0, k0⟩ := avr_sub_spec m0.1 x0 c0 hx0
  generalize avr_sub m0.1 x0 = s0 at i0 j0 k0 ⊢
  obtain ⟨i1, j1, k1⟩ := avr_sbc_spec m1.1 x1 s0.2 c1 hx1 j0
  generalize avr_sbc m1.1 x1 s0.2 = s1 at i1 j1 k1 ⊢
  obtain ⟨i2, j2, k2⟩ := avr_sbc_spec m2.1 x2 s1.2 c2 hx2 j1
  generalize avr_sbc m2.1 x2 s1.2 = s2 at i2 j2 k2 ⊢
  obtain ⟨i3, j3, k3⟩ := avr_sbc_spec m3.1 x3 s2.2 c3 (by omega) j2
  generalize avr_sbc m3.1 x3 s2.2 = s3 at i3 j3 k3 ⊢
  obtain ⟨n0, o0, p0⟩ := avr_add_spec s0.1 x0 i0 hx0
  generalize avr_add s0.1 x0 = t0 at n0 o0 p0 ⊢
  obtain ⟨n1, o1, p1⟩ := avr_adc_spec s1.1 x1 t0.2 i1 hx1 o0
  generalize avr_adc s1.1 x1 t0.2 = t1 at n1 o1 p1 ⊢
  obtain ⟨n2, o2, p2⟩ := avr_adc_spec s2.1 x2 t1.2 i2 hx2 o1
  generalize avr_adc s2.1 x2 t1.2 = t2 at n2 o2 p2 ⊢
  obtain ⟨n3, o3, p3⟩ := avr_adc_spec s3.1 x3 t2.2 i3 (by omega) o2
  generalize avr_adc s3.1 x3 t2.2 = t3 at n3 o3 p3 ⊢
  -- the four chains as multi-byte equations
  have eQ : (l4.1 * 2 ^ 32 + l3.1 * 2 ^ 24 + l2.1 * 2 ^ 16 + l1.1 * 2 ^ 8 + l0.1)
      + 2 ^ 40 * l4.2
      = 2 * (s.q4 * 2 ^ 32 + s.q3 * 2 ^ 24 + s.q2 * 2 ^ 16 + s.q1 * 2 ^ 8 + s.q0) + s.c := by
    clear f0 f1 f2 f3 k0 k1 k2 k3 p0 p1 p2 p3 hrem
    omega
  have eR : (m3.1 * 2 ^ 24 + m2.1 * 2 ^ 16 + m1.1 * 2 ^ 8 + m0.1) + 2 ^ 32 * m3.2
      = 2 * (s.r3 * 2 ^ 24 + s.r2 * 2 ^ 16 + s.r1 * 2 ^ 8 + s.r0) + l4.2 := by
    clear e0 e1 e2 e3 e4 eQ k0 k1 k2 k3 p0 p1 p2 p3 hrem
    omega
  have eS : (s3.1 * 2 ^ 24 + s2.1 * 2 ^ 16 + s1.1 * 2 ^ 8 + s0.1)
      + (x3 * 2 ^ 24 + x2 * 2 ^ 16 + x1 * 2 ^ 8 + x0)
      = (m3.1 * 2 ^ 24 + m2.1 * 2 ^ 16 + m1.1 * 2 ^ 8 + m0.1) + 2 ^ 32 * s3.2 := by
    clear e0 e1 e2 e3 e4 eQ f0 f1 f2 f3 eR p0 p1 p2 p3 hrem
    omega
  have eT : (t3.1 * 2 ^ 24 + t2.1 * 2 ^ 16 + t1.1 * 2 ^ 8 + t0.1) + 2 ^ 32 * t3.2
      = (s3.1 * 2 ^ 24 + s2.1 * 2 ^ 16 + s1.1 * 2 ^ 8 + s0.1)
        + (x3 * 2 ^ 24 + x2 * 2 ^ 16 + x1 * 2 ^ 8 + x0) := by
    clear e0 e1 e2 e3 e4 eQ f0 f1 f2 f3 eR k0 k1 k2 k3 eS hrem
    omega
  have hQlt : l4.1 * 2 ^ 32 + l3.1 * 2 ^ 24 + l2.1 * 2 ^ 16 + l1.1 * 2 ^ 8 + l0.1 < 2 ^ 40 := by
    clear e0 e1 e2 e3 e4 eQ f0 f1 f2 f3 eR k0 k1 k2 k3 eS p0 p1 p2 p3 eT hrem
    omega
  have hR1lt : m3.1 * 2 ^ 24 + m2.1 * 2 ^ 16 + m1.1 * 2 ^ 8 + m0.1 < 2 ^ 32 := by
    clear e0 e1 e2 e3 e4 eQ f0 f1 f2 f3 eR k0 k1 k2 k3 eS p0 p1 p2 p3 eT hrem
    omega
  have hSlt : s3.1 * 2 ^ 24 + s2.1 * 2 ^ 16 + s1.1 * 2 ^ 8 + s0.1 < 2 ^ 32 := by
    clear e0 e1 e2 e3 e4 eQ f0 f1 f2 f3 eR k0 k1 k2 k3 eS p0 p1 p2 p3 eT hrem
    omega
  have hTlt : t3.1 * 2 ^ 24 + t2.1 * 2 ^ 16 + t1.1 * 2 ^ 8 + t0.1 < 2 ^ 32 := by
    clear e0 e1 e2 e3 e4 eQ f0 f1 f2 f3 eR k0 k1 k2 k3 eS p0 p1 p2 p3 eT hrem
    omega
  have hXlt : x3 * 2 ^ 24 + x2 * 2 ^ 16 + x1 * 2 ^ 8 + x0 < 2 ^ 31 := by
    clear e0 e1 e2 e3 e4 eQ f0 f1 f2 f3 eR k0 k1 k2 k3 eS p0 p1 p2 p3 eT hrem
    omega
  have hwf1 : DivRegs.wf
      { q0 := l0.1, q1 := l1.1, q2 := l2.1, q3 := l3.1, q4 := l4.1,
        r0 := s0.1, r1 := s1.1, r2 := s2.1, r3 := s3.1, c := 1 } :=
    ⟨a0, a1, a2, a3, a4, i0, i1, i2, i3, le_refl 1⟩
  have hwf0 : DivRegs.wf
      { q0 := l0.1, q1 := l1.1, q2 := l2.1, q3 := l3.1, q4 := l4.1,
        r0 := t0.1, r1 := t1.1, r2 := t2.1, r3 := t3.1, c := 0 } :=
    ⟨a0, a1, a2, a3, a4, n0, n1, n2, n3, Nat.zero_le 1⟩
  clear e0 e1 e2 e3 e4 f0 f1 f2 f3 k0 k1 k2 k3 p0 p1 p2 p3
  clear a0 a1 a2 a3 a4 i0 i1 i2 i3 n0 n1 n2 n3 c0 c1 c2 c3
  clear b0 b1 b2 b3 d0 d1 d2 j0 j1 j2 o0 o1 o2
  clear h0 h1 h2 h3 h4 h5 h6 h7 h8 hx0 hx1 hx2 hx3
  by_cases hb : s3.2 = 0
  · rw [if_pos hb]
    refine ⟨hwf1, ?_⟩
    simp only [DivRegs.rem, DivRegs.all, DivRegs.quot]
    generalize l4.1 * 2 ^ 32 + l3.1 * 2 ^ 24 + l2.1 * 2 ^ 16 + l1.1 * 2 ^ 8 + l0.1 = Q1
      at eQ hQlt ⊢
    generalize m3.1 * 2 ^ 24 + m2.1 * 2 ^ 16 + m1.1 * 2 ^ 8 + m0.1 = R1 at eR eS hR1lt ⊢
    generalize s3.1 * 2 ^ 24 + s2.1 * 2 ^ 16 + s1.1 * 2 ^ 8 + s0.1 = S1 at eS eT hSlt ⊢
    generalize t3.1 * 2 ^ 24 + t2.1 * 2 ^ 16 + t1.1 * 2 ^ 8 + t0.1 = T1 at eT hTlt ⊢
    generalize x3 * 2 ^ 24 + x2 * 2 ^ 16 + x1 * 2 ^ 8 + x0 = X at eS eT hXlt hrem ⊢
    generalize s.q4 * 2 ^ 32 + s.q3 * 2 ^ 24 + s.q2 * 2 ^ 16 + s.q1 * 2 ^ 8 + s.q0 = Q at eQ ⊢
    generalize s.r3 * 2 ^ 24 + s.r2 * 2 ^ 16 + s.r1 * 2 ^ 8 + s.r0 = R at eR hrem ⊢
    refine ⟨by omega, ?_⟩
    split_ifs <;> omega
  · rw [if_neg hb]
    refine ⟨hwf0, ?_⟩
    simp only [DivRegs.rem, DivRegs.all, DivRegs.quot]
    generalize l4.1 * 2 ^ 32 + l3.1 * 2 ^ 24 + l2.1 * 2 ^ 16 + l1.1 * 2 ^ 8 + l0.1 = Q1
      at eQ hQlt ⊢
    generalize m3.1 * 2 ^ 24 + m2.1 * 2 ^ 16 + m1.1 * 2 ^ 8 + m0.1 = R1 at eR eS hR1lt ⊢
    generalize s3.1 * 2 ^ 24 + s2.1 * 2 ^ 16 + s1.1 * 2 ^ 8 + s0.1 = S1 at eS eT hSlt ⊢
    generalize t3.1 * 2 ^ 24 + t2.1 * 2 ^ 16 + t1.1 * 2 ^ 8 + t0.1 = T1 at eT hTlt ⊢
    generalize x3 * 2 ^ 24 + x2 * 2 ^ 16 + x1 * 2 ^ 8 + x0 = X at eS eT hXlt hrem ⊢
    generalize s.q4 * 2 ^ 32 + s.q3 * 2 ^ 24 + s.q2 * 2 ^ 16 + s.q1 * 2 ^ 8 + s.q0 = Q at eQ ⊢
    generalize s.r3 * 2 ^ 24 + s.r2 * 2 ^ 16 + s.r1 * 2 ^ 8 + s.r0 = R at eR hrem ⊢
    refine ⟨by omega, ?_⟩
    split_ifs <;> omega

theorem divLoop_inv (x0 x1 x2 x3 : Nat) (s0 : DivRegs)
    (hx0 : x0 < 256) (hx1 : x1 < 256) (hx2 : x2 < 256) (hx3 : x3 < 128)
    (hs : s0.wf) (hrem : s0.rem < x3 * 2 ^ 24 + x2 * 2 ^ 16 + x1 * 2 ^ 8 + x0)
    (hall : s0.all < (x3 * 2 ^ 24 + x2 * 2 ^ 16 + x1 * 2 ^ 8 + x0) * 2 ^ 41 - 1) (k : Nat) :
    (asmLoop (divStep x0 x1 x2 x3) k s0).wf
      ∧ (asmLoop (divStep x0 x1 x2 x3) k s0).rem < x3 * 2 ^ 24 + x2 * 2 ^ 16 + x1 * 2 ^ 8 + x0
      ∧ (asmLoop (divStep x0 x1 x2 x3) k s0).all
          < (x3 * 2 ^ 24 + x2 * 2 ^ 16 + x1 * 2 ^ 8 + x0) * 2 ^ 41 - 1
      ∧ (asmLoop (divStep x0 x1 x2 x3) k s0).all
          = (2 ^ k * s0.all) % ((x3 * 2 ^ 24 + x2 * 2 ^ 16 + x1 * 2 ^ 8 + x0) * 2 ^ 41 - 1) := by
  induction k with
  | zero =>
    refine ⟨hs, hrem, hall, ?_⟩
    show s0.all = _
    rw [Nat.pow_zero, Nat.one_mul, Nat.mod_eq_of_lt hall]
  | succ k ih =>
    obtain ⟨iwf, irem, iall, ieq⟩ := ih
    rw [asmLoop_succ]
    generalize asmLoop (divStep x0 x1 x2 x3) k s0 = s at iwf irem iall ieq
    obtain ⟨h1, h2, h3⟩ := divStep_spec x0 x1 x2 x3 s hx0 hx1 hx2 hx3 iwf irem
    refine ⟨h1, h2, ?_⟩
    rw [h3]
    generalize x3 * 2 ^ 24 + x2 * 2 ^ 16 + x1 * 2 ^ 8 + x0 = X at irem iall ieq hall ⊢
    have hmod : 2 ^ (k + 1) * s0.all % (X * 2 ^ 41 - 1) = (2 * s.all) % (X * 2 ^ 41 - 1) := by
      rw [ieq, Nat.pow_succ, Nat.mul_comm (2 ^ k) 2, Nat.mul_assoc]
      conv_rhs => rw [Nat.mul_mod, Nat.mod_mod, ← Nat.mul_mod]
    rw [hmod]
    by_cases hc : X * 2 ^ 41 ≤ 2 * s.all
    · rw [if_pos hc]
      have hlt : 2 * s.all - (X * 2 ^ 41 - 1) < X * 2 ^ 41 - 1 := by omega
      refine ⟨hlt, ?_⟩
      rw [Nat.mod_eq_sub_mod (by omega), Nat.mod_eq_of_lt hlt]
    · rw [if_neg hc]
      have hlt : 2 * s.all < X * 2 ^ 41 - 1 := by omega
      exact ⟨hlt, (Nat.mod_eq_of_lt hlt).symm⟩

theorem divRound_spec (s : DivRegs) (hs : s.wf) :
    (divRound s).wf ∧ (divRound s).quot = (s.quot + s.c) % 2 ^ 40 := by
  obtain ⟨h0, h1, h2, h3, h4, h5, h6, h7, h8, hc⟩ := hs
  simp only [divRound, DivRegs.wf, DivRegs.quot, avr_adc]
  refine ⟨⟨?_, ?_, ?_, ?_, ?_, ?_, ?_, ?_, ?_, ?_⟩, ?_⟩ <;> omega

/-- Arithmetic of the rounding: half of the quotient plus its low bit is
the quotient by `2 * X` of the dividend plus `X`, i.e. the round-to-nearest
value. -/
theorem round_half_up (A X : Nat) (hX : 0 < X) :
    A / X / 2 + A / X % 2 = (A + X) / (2 * X) := by
  rw [Nat.mul_comm 2 X, ← Nat.div_div_eq_div_mul, Nat.add_div_right _ hX]
  omega

/-- The divide block leaves in `%4..%0` the quotient of the 40-bit dividend
times `2^31` by `FreqXtal`, rounded to nearest, provided the divisor is below
`2^31` and the dividend below `512 * FreqXtal`. -/
theorem asmDiv_spec (X : Nat) (m : MulRegs) (hm : m.wf) (hX0 : 0 < X) (hX : X < 2 ^ 31)
    (hDX : m.val % 2 ^ 40 < 512 * X) :
    (asmDiv X m).wf
      ∧ (asmDiv X m).quot = ((m.val % 2 ^ 40) * 2 ^ 32 + X) / (2 * X) := by
  obtain ⟨h0, h1, h2, h3, h4, ht, hc⟩ := hm
  have hx0 : X % 256 < 256 := by omega
  have hx1 : X / 256 % 256 < 256 := by omega
  have hx2 : X / 65536 % 256 < 256 := by omega
  have hx3 : X / 16777216 % 256 < 128 := by omega
  have hXsum : (X / 16777216 % 256) * 2 ^ 24 + (X / 65536 % 256) * 2 ^ 16
      + (X / 256 % 256) * 2 ^ 8 + X % 256 = X := by omega
  have hwf0 : (divInit m).wf := by
    simp only [divInit, DivRegs.wf]
    omega
  have hquot0 : (divInit m).quot = m.val % 2 ^ 40 := by
    simp only [divInit, DivRegs.quot, MulRegs.val]
    omega
  have hrem0 : (divInit m).rem = 0 := by
    simp only [divInit, DivRegs.rem]
    omega
  have hall0 : (divInit m).all = 2 * (m.val % 2 ^ 40) := by
    simp only [DivRegs.all, hquot0, hrem0]
    simp only [divInit]
    omega
  have hDlt : m.val % 2 ^ 40 < 2 ^ 40 := Nat.mod_lt _ (by norm_num)
  generalize m.val % 2 ^ 40 = D at hDX hquot0 hall0 hDlt ⊢
  obtain ⟨iwf, -, -, ieq⟩ := divLoop_inv _ _ _ _ (divInit m) hx0 hx1 hx2 hx3 hwf0
    (by rw [hrem0, hXsum]; exact hX0) (by rw [hall0, hXsum]; omega) (40 + 1 + 28 + 3)
  rw [hXsum, hall0] at ieq
  -- the exact quotient and remainder of `D * 2^32` by `X`
  rw [← round_half_up _ _ hX0]
  have hdm : X * (D * 2 ^ 32 / X) + D * 2 ^ 32 % X = D * 2 ^ 32 := Nat.div_add_mod _ _
  have hr : D * 2 ^ 32 % X < X := Nat.mod_lt _ hX0
  have hz : D * 2 ^ 32 / X < 2 ^ 41 - 1 := by
    rw [Nat.div_lt_iff_lt_mul hX0]
    omega
  generalize D * 2 ^ 32 / X = z at hdm hz ⊢
  generalize D * 2 ^ 32 % X = r at hdm hr
  have hY : X * 2 ^ 41 - 1 + 1 = X * 2 ^ 41 := by omega
  generalize X * 2 ^ 41 - 1 = Y at hY ieq
  have hsplit : 2 ^ (40 + 1 + 28 + 3) * (2 * D) = Y * z + (2 ^ 41 * r + z) := by
    calc 2 ^ (40 + 1 + 28 + 3) * (2 * D) = 2 ^ 41 * (D * 2 ^ 32) := by ring
      _ = 2 ^ 41 * (X * z + r) := by rw [hdm]
      _ = (X * 2 ^ 41) * z + 2 ^ 41 * r := by ring
      _ = (Y + 1) * z + 2 ^ 41 * r := by rw [hY]
      _ = Y * z + (2 ^ 41 * r + z) := by ring
  have hw : 2 ^ 41 * r + z < Y := by omega
  rw [hsplit, Nat.mul_add_mod, Nat.mod_eq_of_lt hw] at ieq
  -- read the quotient off the registers
  have hloop : asmLoop (divStep (X % 256) (X / 256 % 256) (X / 65536 % 256)
      (X / 16777216 % 256)) (40 + 1 + 28 + 3) (divInit m) = divLoop X m := rfl
  rw [hloop] at iwf ieq
  obtain ⟨rwf, rq⟩ := divRound_spec (divLoop X m) iwf
  have hqlt : (divLoop X m).quot < 2 ^ 40 := by
    obtain ⟨g0, g1, g2, g3, g4, -, -, -, -, -⟩ := iwf
    simp only [DivRegs.quot]
    omega
  have hcle : (divLoop X m).c ≤ 1 := iwf.2.2.2.2.2.2.2.2.2
  simp only [DivRegs.all] at ieq
  have hzq : 2 * (divLoop X m).quot + (divLoop X m).c = z := by omega
  refine ⟨rwf, ?_⟩
  show (divRound (divLoop X m)).quot = _
  rw [rq]
  omega

/-! ### Lemmas on `Si570CalcRFREQ` -/

theorem asmDiv_bytes (X : Nat) (m : MulRegs) :
    (asmDiv X m).q0 < 256 ∧ (asmDiv X m).q1 < 256 ∧ (asmDiv X m).q2 < 256
      ∧ (asmDiv X m).q3 < 256 ∧ (asmDiv X m).q4 < 256 := by
  simp only [asmDiv, divRound, avr_adc]
  refine ⟨?_, ?_, ?_, ?_, ?_⟩ <;> exact Nat.mod_lt _ (by norm_num)

/-- The value compared with `(R.Si570DCOMax+4)/8`: bits 24..39 of the
product. -/
theorem asmMul_dco (N freq : Nat) (hN : N < 2 ^ 16) (hf : freq < 2 ^ 32) :
    (asmMul N freq).a3 + 256 * (asmMul N freq).b4 = (N * freq) % 2 ^ 40 / 2 ^ 24 := by
  obtain ⟨⟨h0, h1, h2, h3, h4, ht, hc⟩, hval⟩ := asmMul_spec N freq hN hf
  rw [← hval]
  simp only [MulRegs.val]
  omega

/-- The return value is decided by the range check alone. -/
theorem calcRFREQ_ret (DCOMax X : Nat) (g : Dividers) (freq : Nat) (data : Si570_t) :
    (Si570CalcRFREQ DCOMax X g freq data).1
      = if (asmMul g.Si570_N freq).a3 + 256 * (asmMul g.Si570_N freq).b4
            > ((DCOMax + 4) % 65536) / 8 then 0 else 1 := by
  unfold Si570CalcRFREQ
  simp only []
  split_ifs <;> rfl

theorem calcRFREQ_data (DCOMax X : Nat) (g : Dividers) (freq : Nat) (data : Si570_t)
    (hret : (Si570CalcRFREQ DCOMax X g freq data).1 = 1) :
    (Si570CalcRFREQ DCOMax X g freq data).2 =
      { N1 := ((g.Si570_N1 + 256 - 1) % 256 / 4) % 32,
        HS_DIV := (g.Si570_HS_DIV + 256 - 4) % 8,
        RFREQ_b4 := ((asmDiv X (asmMul g.Si570_N freq)).q4
            ||| ((((g.Si570_N1 + 256 - 1) % 256) &&& 3) <<< 6)) % 256,
        RFREQ_w0_b0 := (asmDiv X (asmMul g.Si570_N freq)).q3,
        RFREQ_w0_b1 := (asmDiv X (asmMul g.Si570_N freq)).q2,
        RFREQ_w1_b0 := (asmDiv X (asmMul g.Si570_N freq)).q1,
        RFREQ_w1_b1 := (asmDiv X (asmMul g.Si570_N freq)).q0 } := by
  unfold Si570CalcRFREQ at hret ⊢
  simp only [] at hret ⊢
  split_ifs at hret ⊢ with hc
  rfl

/-! ### Bit operations of the register layout as arithmetic -/

theorem or_low_bits (a b i : Nat) (hb : b < 2 ^ i) : (a * 2 ^ i) ||| b = a * 2 ^ i + b := by
  rw [Nat.mul_comm a (2 ^ i)]
  exact (Nat.mul_add_lt_is_or hb a).symm

theorem and_mask_5 (x : Nat) : x &&& 0x1F = x % 32 := Nat.and_pow_two_sub_one_eq_mod x 5

theorem and_mask_6 (x : Nat) : x &&& 0x3F = x % 64 := Nat.and_pow_two_sub_one_eq_mod x 6

theorem and_mask_2 (x : Nat) : x &&& 3 = x % 4 := Nat.and_pow_two_sub_one_eq_mod x 2

/-- The byte written to `Si570_Data.RFREQ_b4` when the quotient byte is below
64: the two low bits of `sN1` above the six quotient bits. -/
theorem rfreq_b4_pack (q4 sN1 : Nat) (hq : q4 < 64) :
    (q4 ||| ((sN1 &&& 3) <<< 6)) % 256 = (sN1 % 4) * 64 + q4 := by
  rw [and_mask_2, Nat.shiftLeft_eq, Nat.or_comm]
  have h := or_low_bits (sN1 % 4) q4 6 (by omega)
  have h64 : (2 : Nat) ^ 6 = 64 := by norm_num
  rw [h64] at h
  rw [h]
  omega

theorem decodeImage_layout (hsf n1f lo2 q4 q3 q2 q1 q0 : Nat)
    (hn1f : n1f < 32) (hlo : lo2 < 4) (h4 : q4 < 64) (h3 : q3 < 256) (h2 : q2 < 256)
    (h1 : q1 < 256) (h0 : q0 < 256) :
    decodeImage [hsf * 32 + n1f, lo2 * 64 + q4, q3, q2, q1, q0]
      = some (n1f * 4 + lo2 + 1, hsf + 4,
          q4 * 2 ^ 32 + q3 * 2 ^ 24 + q2 * 2 ^ 16 + q1 * 2 ^ 8 + q0) := by
  simp only [decodeImage, and_mask_5, and_mask_6, Nat.shiftLeft_eq, Nat.shiftRight_eq_div_pow]
  have e1 : (hsf * 32 + n1f) % 32 = n1f := by omega
  have e2 : (lo2 * 64 + q4) / 2 ^ 6 = lo2 := by omega
  have e3 : (hsf * 32 + n1f) / 2 ^ 5 = hsf := by omega
  have e4 : (lo2 * 64 + q4) % 64 = q4 := by omega
  rw [e1, e2, e3, e4, or_low_bits n1f lo2 2 (by omega)]
  rw [or_low_bits q4 (q3 * 2 ^ 24) 32 (by omega)]
  have f1 : q4 * 2 ^ 32 + q3 * 2 ^ 24 = (q4 * 2 ^ 8 + q3) * 2 ^ 24 := by ring
  rw [f1, or_low_bits _ (q2 * 2 ^ 16) 24 (by omega)]
  have f2 : (q4 * 2 ^ 8 + q3) * 2 ^ 24 + q2 * 2 ^ 16
      = (q4 * 2 ^ 16 + q3 * 2 ^ 8 + q2) * 2 ^ 16 := by ring
  rw [f2, or_low_bits _ (q1 * 2 ^ 8) 16 (by omega)]
  have f3 : (q4 * 2 ^ 16 + q3 * 2 ^ 8 + q2) * 2 ^ 16 + q1 * 2 ^ 8
      = (q4 * 2 ^ 24 + q3 * 2 ^ 16 + q2 * 2 ^ 8 + q1) * 2 ^ 8 := by ring
  rw [f3, or_low_bits _ q0 8 (by omega)]
  have f4 : (q4 * 2 ^ 24 + q3 * 2 ^ 16 + q2 * 2 ^ 8 + q1) * 2 ^ 8 + q0
      = q4 * 2 ^ 32 + q3 * 2 ^ 24 + q2 * 2 ^ 16 + q1 * 2 ^ 8 + q0 := by ring
  rw [f4]
  norm_num

/-! ### Lemmas on `Si570_Small_Change` -/

/-- As long as fifteen times the distance between the two frequencies fits in
32 bits, the decision is the exact comparison. -/
theorem smallChange_exact_of_no_wrap (prev ppm cur : Nat)
    (hprev : prev < 2 ^ 32) (hcur : cur < 2 ^ 32) (hppm : ppm < 2 ^ 16)
    (hsmall : ((cur - prev) + (prev - cur)) * 15 < 2 ^ 32) :
    Si570_Small_Change prev ppm cur = true
      ↔ ((cur - prev) + (prev - cur)) * 15 ≤ (prev / 65536) * ppm := by
  have hhi : prev / 65536 % 65536 = prev / 65536 := by omega
  have hprod : (prev / 65536) * ppm < 2 ^ 32 := by
    have h1 : prev / 65536 ≤ 65535 := by omega
    have h2 : ppm ≤ 65535 := by omega
    have := Nat.mul_le_mul h1 h2
    omega
  unfold Si570_Small_Change
  simp only [hhi, Nat.mod_eq_of_lt hprod, decide_eq_true_eq]
  generalize (prev / 65536) * ppm = T
  split_ifs <;> omega

/-! ### Lemmas on the register write protocol -/

/-- A register write whose three bytes are acknowledged is one complete
transaction and leaves the error flag clear. -/
theorem cmdReg_of_ack (nack : Nat → Bool) (cfg : WriteCfg) (reg data : Nat) (b : Bus)
    (h0 : nack b.sent = false) (h1 : nack (b.sent + 1) = false)
    (h2 : nack (b.sent + 2) = false) :
    (Si570CmdReg nack cfg reg data b).trace = b.trace ++ writeTxn cfg reg [data]
      ∧ (Si570CmdReg nack cfg reg data b).sent = b.sent + 3
      ∧ (Si570CmdReg nack cfg reg data b).I2CErrors = false := by
  simp [Si570CmdReg, Si570CmdStart, I2CSendStart, I2CSendByte, I2CSendStop, writeTxn,
    h0, h1, h2, Nat.shiftLeft_eq]

/-- A register write grows the trace by a run of events that starts a
transaction with the device address; when the address goes unacknowledged the
transaction is cut short. -/
theorem cmdReg_trace (nack : Nat → Bool) (cfg : WriteCfg) (reg data : Nat) (b : Bus) :
    (Si570CmdReg nack cfg reg data b).trace
      = b.trace ++
          (if nack b.sent = true then
            [BusEvent.start, BusEvent.byte ((cfg.ChipCrtlData * 2) % 256), BusEvent.stop]
          else writeTxn cfg reg [data]) := by
  by_cases h : nack b.sent = true
  · simp [Si570CmdReg, Si570CmdStart, I2CSendStart, I2CSendByte, I2CSendStop, h,
      Nat.shiftLeft_eq]
  · simp [Si570CmdReg, Si570CmdStart, I2CSendStart, I2CSendByte, I2CSendStop, writeTxn, h,
      Nat.shiftLeft_eq]

/-! ### Lemmas on `SetFreq` -/

theorem times15_mod_ne_zero (delta : Nat) (h0 : 0 < delta) (h32 : delta < 2 ^ 32) :
    delta * 15 % 2 ^ 32 ≠ 0 := by
  intro h
  have hdvd : 2 ^ 32 ∣ delta * 15 := Nat.dvd_of_mod_eq_zero h
  have hco : Nat.Coprime (2 ^ 32) 15 := by norm_num
  have := Nat.le_of_dvd h0 (hco.dvd_of_dvd_mul_right hdvd)
  omega

/-- With the center frequency unset, no nonzero 32-bit target frequency is
eligible for smooth tuning, whatever the ppm limit. -/
theorem smallChange_unset_of_pos (ppm freq : Nat) (h0 : 0 < freq) (h32 : freq < 2 ^ 32) :
    Si570_Small_Change 0 ppm freq = false := by
  unfold Si570_Small_Change
  simp only [Nat.zero_div, Nat.zero_mod, Nat.zero_mul, Nat.sub_zero, decide_eq_false_iff_not]
  have hd : (freq + 2 ^ 32) % 2 ^ 32 = freq := by omega
  rw [hd]
  have hdelta : 0 < (if freq ≥ 2 ^ 31 then (2 ^ 32 - freq) % 2 ^ 32 else freq)
      ∧ (if freq ≥ 2 ^ 31 then (2 ^ 32 - freq) % 2 ^ 32 else freq) < 2 ^ 32 := by
    split_ifs <;> omega
  have := times15_mod_ne_zero _ hdelta.1 hdelta.2
  omega

/-- A ppm limit of zero never selects the small-change branch. -/
theorem smoothTunePath_of_ppm_zero (R : Config) (g : Globals) (freq : Nat)
    (hppm : R.SmoothTunePPM = 0) : smoothTunePath R g freq = false := by
  simp [smoothTunePath, hppm]

/-- On the large-change branch the bus is touched only by
`Si570WriteLargeChange`, and only when both calculations succeed. -/
theorem setFreq_large_bus (nack : Nat → Bool) (R : Config) (freq : Nat) (g g2 : Globals)
    (h : SetFreq_largeChange nack R freq g = some g2) :
    g2.bus = g.bus
      ∨ ∃ d, Si570CalcDivider R.Si570DCOMin R.Si570Grade freq g.dividers = some (true, d)
          ∧ (Si570CalcRFREQ R.Si570DCOMax R.FreqXtal d freq g.Si570_Data).1 ≠ 0
          ∧ g2.bus = Si570WriteLargeChange nack R.write
              (Si570CalcRFREQ R.Si570DCOMax R.FreqXtal d freq g.Si570_Data).2 g.bus := by
  unfold SetFreq_largeChange at h
  split at h
  · cases h
  · injection h with h
    subst h
    exact Or.inl rfl
  · rename_i d hd
    simp only [] at h
    split_ifs at h with hr
    · injection h with h
      subst h
      exact Or.inl rfl
    · injection h with h
      subst h
      exact Or.inr ⟨d, hd, hr, rfl⟩

/-- Scenario B checked by evaluation, for one configuration and one pair of
requests. -/
theorem scenarioB_eval (R : Config) (f1 f2 : Nat)
    (h1 : (SetFreq (fun _ => false) R id f1
        ⟨0, ⟨0, 0, 0⟩, 0, ⟨0, 0, 0, 0, 0, 0, 0⟩, ⟨[], 0, false⟩⟩).isSome = true)
    (h2 : ((SetFreq (fun _ => false) R id f1
        ⟨0, ⟨0, 0, 0⟩, 0, ⟨0, 0, 0, 0, 0, 0, 0⟩, ⟨[], 0, false⟩⟩).bind
          (fun g1 => (SetFreq (fun _ => false) R id f2 g1).map (fun g2 =>
            decide (smoothTunePath R { g1 with Freq := f2 } f2 = true
              ∧ g2 = SetFreq_smallChange (fun _ => false) R f2 { g1 with Freq := f2 }
              ∧ g2.dividers = g1.dividers
              ∧ g1.FreqSmoothTune = f1 ∧ g2.FreqSmoothTune = f1
              ∧ g2.bus.trace = g1.bus.trace ++ g2.bus.trace.drop g1.bus.trace.length
              ∧ ∀ t ∈ transactions (g2.bus.trace.drop g1.bus.trace.length),
                  ¬ writesRegister 137 t ∧ t.drop 1 ≠ [135, 0x40])))) = some true) :
    ScenarioB R f1 f2 := by
  cases hg1 : SetFreq (fun _ => false) R id f1
      ⟨0, ⟨0, 0, 0⟩, 0, ⟨0, 0, 0, 0, 0, 0, 0⟩, ⟨[], 0, false⟩⟩ with
  | none => rw [hg1] at h1; cases h1
  | some g1 =>
    rw [hg1] at h2
    simp only [Option.some_bind] at h2
    cases hg2 : SetFreq (fun _ => false) R id f2 g1 with
    | none => rw [hg2] at h2; cases h2
    | some g2 =>
      rw [hg2] at h2
      simp only [Option.map_some', Option.some.injEq, decide_eq_true_eq] at h2
      obtain ⟨a, b, c, d, e, f, g⟩ := h2
      exact ⟨g1, g2, g2.bus.trace.drop g1.bus.trace.length, hg1, hg2, a, b, c, d, e, f, g⟩

/-- With the center frequency unset, every nonzero 32-bit request takes the
large-change branch. -/
theorem smoothTunePath_unset_of_pos (R : Config) (g : Globals) (freq : Nat)
    (hg : g.FreqSmoothTune = 0) (h0 : 0 < freq) (h32 : freq < 2 ^ 32) :
    smoothTunePath R g freq = false := by
  simp [smoothTunePath, hg, smallChange_unset_of_pos R.SmoothTunePPM freq h0 h32]

/-! # Verified properties -/

/-! ## Divider solver (`Si570CalcDivider`) -/

/-- C1: whenever `Si570CalcDivider` returns true, the stored pair
`(Si570_N1, Si570_HS_DIV)` is a valid candidate (its `HS_DIV` is one of
11, 9, 7, 6, 5, 4, its `N1` is the even-rounded `N0/h + 1`, that value is at
most 128 before rounding and the pair is not forbidden for the grade), the
stored `Si570_N` is `N1 * HS_DIV`, no valid candidate has a strictly smaller
total, and among the valid candidates with that same total the stored one has
the largest `HS_DIV`. -/
theorem calcDivider_stores_minimal_candidate (DCOMin : Nat) (grade : ChipGrade)
    (freq N0 : Nat) (g g1 : Dividers)
    (hN0 : calcN0 DCOMin freq = some N0)
    (hret : Si570CalcDivider DCOMin grade freq g = some (true, g1)) :
    (g1.Si570_HS_DIV ∈ [11, 9, 7, 6, 5, 4]
        ∧ g1.Si570_N1 = candN1 N0 g1.Si570_HS_DIV
        ∧ validCand grade N0 g1.Si570_HS_DIV)
      ∧ g1.Si570_N = g1.Si570_N1 * g1.Si570_HS_DIV
      ∧ (∀ h ∈ [11, 9, 7, 6, 5, 4], validCand grade N0 h →
            g1.Si570_N ≤ candN1 N0 h * h)
      ∧ (∀ h ∈ [11, 9, 7, 6, 5, 4], validCand grade N0 h →
            candN1 N0 h * h = g1.Si570_N → h ≤ g1.Si570_HS_DIV) := by
  obtain ⟨M, hM, -, hm, hv, hn1, hn, -, hall⟩ := calcDivider_true hret
  rw [hN0] at hM
  injection hM with hM
  subst hM
  refine ⟨⟨hm, hn1, hv⟩, ?_, ?_, ?_⟩
  · rw [hn, hn1]
    rfl
  · intro h hh hvh
    have := hall h hh hvh
    unfold candN at this
    omega
  · intro h hh hvh heq
    have := hall h hh hvh
    unfold candN at this
    omega

/-- Instance of C1: 10 MHz, `DCOMin = 4850`, grade C gives `N0 = 485` and the
stored dividers `N1 = 54`, `HS_DIV = 9`, `N = 486`. -/
theorem calcDivider_stores_minimal_candidate_witness :
    calcN0 4850 20971520 = some 485
      ∧ Si570CalcDivider 4850 ChipGrade.C 20971520 ⟨0, 0, 0⟩ = some (true, ⟨486, 54, 9⟩)
      ∧ ((9 ∈ [11, 9, 7, 6, 5, 4] ∧ 54 = candN1 485 9 ∧ validCand ChipGrade.C 485 9)
        ∧ 486 = 54 * 9
        ∧ (∀ h ∈ [11, 9, 7, 6, 5, 4], validCand ChipGrade.C 485 h → 486 ≤ candN1 485 h * h)
        ∧ (∀ h ∈ [11, 9, 7, 6, 5, 4], validCand ChipGrade.C 485 h →
              candN1 485 h * h = 486 → h ≤ 9)) :=
  ⟨by decide, by decide,
    calcDivider_stores_minimal_candidate 4850 ChipGrade.C 20971520 485 ⟨0, 0, 0⟩ ⟨486, 54, 9⟩
      (by decide) (by decide)⟩

/-- C2: for every chip grade, whenever `Si570CalcDivider` returns true the
stored pair `(Si570_N1, Si570_HS_DIV)` is not in that grade's forbidden set
(none for A; (1,4),(1,5) for B; the eleven pairs of C; the C list without (4,4)
for D). -/
theorem calcDivider_never_forbidden (DCOMin : Nat) (grade : ChipGrade)
    (freq : Nat) (g g1 : Dividers)
    (hret : Si570CalcDivider DCOMin grade freq g = some (true, g1)) :
    (g1.Si570_N1, g1.Si570_HS_DIV) ∉
      (match grade with
        | ChipGrade.A => []
        | ChipGrade.B => [(1, 4), (1, 5)]
        | ChipGrade.C => [(1, 4), (1, 5), (1, 6), (1, 7), (1, 11),
                          (2, 4), (2, 5), (2, 6), (2, 7), (2, 9), (4, 4)]
        | ChipGrade.D => [(1, 4), (1, 5), (1, 6), (1, 7), (1, 11),
                          (2, 4), (2, 5), (2, 6), (2, 7), (2, 9)]
        | ChipGrade.other => []) := by
  obtain ⟨M, -, -, -, hv, hn1, -, -, -⟩ := calcDivider_true hret
  have h2 := hv.2
  rw [← hn1] at h2
  cases grade <;> exact h2

/-- Instance of C2: 280 MHz on a grade C chip with `DCOMin = 4850`; the pair
`(2, 9)` with the smallest total 18 is forbidden and `(4, 5)` is stored. -/
theorem calcDivider_never_forbidden_witness :
    Si570CalcDivider 4850 ChipGrade.C 587202560 ⟨0, 0, 0⟩ = some (true, ⟨20, 4, 5⟩)
      ∧ ((4, 5) : Nat × Nat) ∉
          [(1, 4), (1, 5), (1, 6), (1, 7), (1, 11),
           (2, 4), (2, 5), (2, 6), (2, 7), (2, 9), (4, 4)] :=
  ⟨by decide,
    calcDivider_never_forbidden 4850 ChipGrade.C 587202560 ⟨0, 0, 0⟩ ⟨20, 4, 5⟩ (by decide)⟩

/-- C3: on every input on which `Si570CalcDivider` returns true, the stored
configuration satisfies `Si570_N = Si570_N1 * Si570_HS_DIV` as exact integers
below `2^16`, `Si570_HS_DIV` is one of 4, 5, 6, 7, 9, 11, `Si570_N1` is 1 or
even, and `1 <= Si570_N1 <= 128`. -/
theorem calcDivider_config_invariant (DCOMin : Nat) (grade : ChipGrade)
    (freq : Nat) (g g1 : Dividers)
    (hret : Si570CalcDivider DCOMin grade freq g = some (true, g1)) :
    g1.Si570_N = g1.Si570_N1 * g1.Si570_HS_DIV
      ∧ g1.Si570_N1 * g1.Si570_HS_DIV < 2 ^ 16
      ∧ g1.Si570_HS_DIV ∈ [4, 5, 6, 7, 9, 11]
      ∧ (g1.Si570_N1 = 1 ∨ g1.Si570_N1 % 2 = 0)
      ∧ 1 ≤ g1.Si570_N1 ∧ g1.Si570_N1 ≤ 128 := by
  obtain ⟨M, -, -, hm, hv, hn1, hn, hs, -⟩ := calcDivider_true hret
  obtain ⟨h1, h128, -, hev⟩ := candN1_le hv.1
  have hprod : g1.Si570_N = g1.Si570_N1 * g1.Si570_HS_DIV := by
    rw [hn, hn1]
    rfl
  refine ⟨hprod, ?_, ?_, ?_, ?_, ?_⟩
  · rw [← hprod]
    omega
  · simp only [hsDivs, List.mem_cons, List.mem_singleton, List.mem_nil_iff, or_false] at hm
    simp only [List.mem_cons, List.mem_singleton, List.mem_nil_iff, or_false]
    omega
  · rw [hn1]
    exact hev
  · rw [hn1]
    exact h1
  · rw [hn1]
    exact h128

/-- Instance of C3: 10 MHz, `DCOMin = 4850`, grade C stores `N = 486`,
`N1 = 54`, `HS_DIV = 9`. -/
theorem calcDivider_config_invariant_witness :
    Si570CalcDivider 4850 ChipGrade.C 20971520 ⟨7, 7, 7⟩ = some (true, ⟨486, 54, 9⟩)
      ∧ (486 = 54 * 9 ∧ 54 * 9 < 2 ^ 16 ∧ 9 ∈ [4, 5, 6, 7, 9, 11]
        ∧ (54 = 1 ∨ 54 % 2 = 0) ∧ 1 ≤ 54 ∧ 54 ≤ 128) :=
  ⟨by decide,
    calcDivider_config_invariant 4850 ChipGrade.C 20971520 ⟨7, 7, 7⟩ ⟨486, 54, 9⟩ (by decide)⟩

/-- C4 (evaluation at the failing input): with `DCOMin = 4860` and
`freq = 7340032` (3.5 MHz) the solver computes `N0 = 1388`; for `HS_DIV = 11`
the candidate is `N0/11 + 1 = 127 <= 128`, rounded to `N1 = 128`, forbidden for
no grade and hence valid, yet `Si570CalcDivider` returns false and leaves the
stored dividers untouched, for every grade. -/
theorem calcDivider_rejects_N1_128_HS_11 (grade : ChipGrade) (g : Dividers) :
    calcN0 4860 7340032 = some 1388
      ∧ 1388 / 11 + 1 ≤ 128
      ∧ candN1 1388 11 = 128
      ∧ validCand grade 1388 11
      ∧ Si570CalcDivider 4860 grade 7340032 g = some (false, g) := by
  cases grade <;> exact ⟨by decide, by decide, by decide, by decide, rfl⟩

/-- C5: whenever `Si570CalcDivider` returns true for a target frequency
`freq >= 2^18` and a minimum-DCO setting with `8 * DCOMin < 2^16`, the chosen
total division keeps the oscillator at or above its minimum:
`Si570_N * freq >= DCOMin * 2^21` as exact integers. -/
theorem calcDivider_dco_at_least_min (DCOMin : Nat) (grade : ChipGrade)
    (freq : Nat) (g g1 : Dividers)
    (_hfreq : 2 ^ 18 ≤ freq) (hDCO : 8 * DCOMin < 2 ^ 16)
    (hret : Si570CalcDivider DCOMin grade freq g = some (true, g1)) :
    DCOMin * 2 ^ 21 ≤ g1.Si570_N * freq := by
  obtain ⟨N0, hN0, -, hm, hv, hn1, hn, -, -⟩ := calcDivider_true hret
  obtain ⟨-, -, hge, -⟩ := candN1_le hv.1
  obtain ⟨h4, -, -, -⟩ := hsDivs_bounds hm
  -- the stored total exceeds `N0`
  have hNgt : N0 < g1.Si570_N := by
    rw [hn]
    unfold candN
    have h1 : (N0 / g1.Si570_HS_DIV + 1) * g1.Si570_HS_DIV
        ≤ candN1 N0 g1.Si570_HS_DIV * g1.Si570_HS_DIV := Nat.mul_le_mul_right _ hge
    have h2 : N0 < (N0 / g1.Si570_HS_DIV + 1) * g1.Si570_HS_DIV := by
      rw [Nat.mul_comm]
      exact Nat.lt_mul_div_succ N0 (by omega)
    omega
  -- `N0` is the quotient of `8 * DCOMin` by `freq >> 18`
  unfold calcN0 at hN0
  simp only at hN0
  split at hN0
  · cases hN0
  · rename_i hd
    injection hN0 with hN0
    have hd0 : 0 < freq / 65536 % 65536 / 4 := Nat.pos_of_ne_zero hd
    have hmod : DCOMin * 8 % 65536 = DCOMin * 8 := Nat.mod_eq_of_lt (by omega)
    rw [hmod] at hN0
    have h3 : DCOMin * 8 < (freq / 65536 % 65536 / 4) * (DCOMin * 8 / (freq / 65536 % 65536 / 4) + 1) :=
      Nat.lt_mul_div_succ _ hd0
    rw [hN0] at h3
    have h4 : (freq / 65536 % 65536 / 4) * (N0 + 1) ≤ (freq / 65536 % 65536 / 4) * g1.Si570_N :=
      Nat.mul_le_mul_left _ hNgt
    have h5 : (freq / 65536 % 65536 / 4) * 262144 ≤ freq := by omega
    have h6 : g1.Si570_N * ((freq / 65536 % 65536 / 4) * 262144) ≤ g1.Si570_N * freq :=
      Nat.mul_le_mul_left _ h5
    have h7 : g1.Si570_N * ((freq / 65536 % 65536 / 4) * 262144)
        = ((freq / 65536 % 65536 / 4) * g1.Si570_N) * 262144 := by ring
    have h8 : DCOMin * 2 ^ 21 = (DCOMin * 8) * 262144 := by ring
    rw [h8]
    have h9 : (DCOMin * 8) * 262144 ≤ ((freq / 65536 % 65536 / 4) * g1.Si570_N) * 262144 :=
      Nat.mul_le_mul_right _ (by omega)
    omega

/-- Instance of C5: 10 MHz with `DCOMin = 4850` stores `N = 486`, and
`486 * 10 MHz = 4860 MHz >= 4850 MHz`. -/
theorem calcDivider_dco_at_least_min_witness :
    2 ^ 18 ≤ 20971520 ∧ 8 * 4850 < 2 ^ 16
      ∧ Si570CalcDivider 4850 ChipGrade.C 20971520 ⟨0, 0, 0⟩ = some (true, ⟨486, 54, 9⟩)
      ∧ 4850 * 2 ^ 21 ≤ 486 * 20971520 :=
  ⟨by norm_num, by norm_num, by decide,
    calcDivider_dco_at_least_min 4850 ChipGrade.C 20971520 ⟨0, 0, 0⟩ ⟨486, 54, 9⟩
      (by norm_num) (by norm_num) (by decide)⟩

/-! ## Fractional tuning word calculator (`Si570CalcRFREQ`) -/

/-- C6: for a 16-bit divider total `N`, a 32-bit target `freq` and a crystal
value `0 < X < 2^31` with `N*freq < 2^40` and `N*freq < 512*X`, whenever
`Si570CalcRFREQ` returns 1 the 40-bit quotient it computes (the local
`RFREQ_b4` left by the divide block, before the `N1` bits are OR-ed in,
followed by the four stored `RFREQ` bytes, most significant first) equals the
round-to-nearest value `floor(N*freq*2^31 / X + 1/2)`, which is
`floor(N*freq*2^32 / X)` shifted right by one plus its discarded low bit. -/
theorem calcRFREQ_quotient_round_nearest (DCOMax X : Nat) (g : Dividers) (freq : Nat)
    (data : Si570_t)
    (hN : g.Si570_N < 2 ^ 16) (hf : freq < 2 ^ 32) (hX0 : 0 < X) (hX : X < 2 ^ 31)
    (h40 : g.Si570_N * freq < 2 ^ 40) (h512 : g.Si570_N * freq < 512 * X)
    (hret : (Si570CalcRFREQ DCOMax X g freq data).1 = 1) :
    (Si570CalcRFREQ DCOMax X g freq data).2.RFREQ_b4
        = ((asmDiv X (asmMul g.Si570_N freq)).q4
            ||| ((((g.Si570_N1 + 256 - 1) % 256) &&& 3) <<< 6)) % 256
      ∧ (asmDiv X (asmMul g.Si570_N freq)).q4 * 2 ^ 32
          + (Si570CalcRFREQ DCOMax X g freq data).2.RFREQ_w0_b0 * 2 ^ 24
          + (Si570CalcRFREQ DCOMax X g freq data).2.RFREQ_w0_b1 * 2 ^ 16
          + (Si570CalcRFREQ DCOMax X g freq data).2.RFREQ_w1_b0 * 2 ^ 8
          + (Si570CalcRFREQ DCOMax X g freq data).2.RFREQ_w1_b1
        = (2 * (g.Si570_N * freq * 2 ^ 31) + X) / (2 * X)
      ∧ (2 * (g.Si570_N * freq * 2 ^ 31) + X) / (2 * X)
        = g.Si570_N * freq * 2 ^ 32 / X / 2 + g.Si570_N * freq * 2 ^ 32 / X % 2 := by
  rw [calcRFREQ_data DCOMax X g freq data hret]
  obtain ⟨mwf, mval⟩ := asmMul_spec g.Si570_N freq hN hf
  have hmod : (asmMul g.Si570_N freq).val % 2 ^ 40 = g.Si570_N * freq := by
    rw [mval]
    exact Nat.mod_eq_of_lt h40
  obtain ⟨-, dq⟩ := asmDiv_spec X (asmMul g.Si570_N freq) mwf hX0 hX (by rw [hmod]; exact h512)
  rw [hmod] at dq
  have hshift : 2 * (g.Si570_N * freq * 2 ^ 31) = g.Si570_N * freq * 2 ^ 32 := by ring
  refine ⟨rfl, ?_, ?_⟩
  · rw [hshift, ← dq]
    rfl
  · rw [hshift, round_half_up _ _ hX0]

set_option maxRecDepth 100000 in
/-- Instance of C6: 10 MHz with `N = 486` and a 114.285 MHz crystal. -/
theorem calcRFREQ_quotient_round_nearest_witness :
    (486 < 2 ^ 16 ∧ 20971520 < 2 ^ 32 ∧ 0 < 1917384622 ∧ 1917384622 < 2 ^ 31
      ∧ 486 * 20971520 < 2 ^ 40 ∧ 486 * 20971520 < 512 * 1917384622
      ∧ (Si570CalcRFREQ 5670 1917384622 ⟨486, 54, 9⟩ 20971520 ⟨0, 0, 0, 0, 0, 0, 0⟩).1 = 1)
    ∧ ((Si570CalcRFREQ 5670 1917384622 ⟨486, 54, 9⟩ 20971520 ⟨0, 0, 0, 0, 0, 0, 0⟩).2.RFREQ_b4
        = ((asmDiv 1917384622 (asmMul 486 20971520)).q4
            ||| ((((54 + 256 - 1) % 256) &&& 3) <<< 6)) % 256
      ∧ (asmDiv 1917384622 (asmMul 486 20971520)).q4 * 2 ^ 32
          + (Si570CalcRFREQ 5670 1917384622 ⟨486, 54, 9⟩ 20971520
              ⟨0, 0, 0, 0, 0, 0, 0⟩).2.RFREQ_w0_b0 * 2 ^ 24
          + (Si570CalcRFREQ 5670 1917384622 ⟨486, 54, 9⟩ 20971520
              ⟨0, 0, 0, 0, 0, 0, 0⟩).2.RFREQ_w0_b1 * 2 ^ 16
          + (Si570CalcRFREQ 5670 1917384622 ⟨486, 54, 9⟩ 20971520
              ⟨0, 0, 0, 0, 0, 0, 0⟩).2.RFREQ_w1_b0 * 2 ^ 8
          + (Si570CalcRFREQ 5670 1917384622 ⟨486, 54, 9⟩ 20971520
              ⟨0, 0, 0, 0, 0, 0, 0⟩).2.RFREQ_w1_b1
        = (2 * (486 * 20971520 * 2 ^ 31) + 1917384622) / (2 * 1917384622)
      ∧ (2 * (486 * 20971520 * 2 ^ 31) + 1917384622) / (2 * 1917384622)
        = 486 * 20971520 * 2 ^ 32 / 1917384622 / 2
          + 486 * 20971520 * 2 ^ 32 / 1917384622 % 2) :=
  ⟨⟨by norm_num, by norm_num, by norm_num, by norm_num, by norm_num, by norm_num, by decide⟩,
    calcRFREQ_quotient_round_nearest 5670 1917384622 ⟨486, 54, 9⟩ 20971520
      ⟨0, 0, 0, 0, 0, 0, 0⟩ (by norm_num) (by norm_num) (by norm_num) (by norm_num)
      (by norm_num) (by norm_num) (by decide)⟩

/-- C7: round trip of the register image.  For `Si570_N1` in 1..128,
`Si570_HS_DIV` in {4,5,6,7,9,11} and a successful `Si570CalcRFREQ` call whose
rounded quotient `F` (the 40-bit number left by the divide block) is below
`2^38`, decoding the six bytes `bData[0..5]` of `Si570_Data` with
`HS_DIV = (b0 >> 5) + 4`, `N1 = (((b0 & 0x1F) << 2) | (b1 >> 6)) + 1` and
`fractional = ((b1 & 0x3F) << 32) | (b2 << 24) | (b3 << 16) | (b4 << 8) | b5`
gives back exactly `(Si570_N1, Si570_HS_DIV, F)`. -/
theorem register_image_round_trip (DCOMax X : Nat) (g : Dividers) (freq : Nat)
    (data : Si570_t)
    (hN1lo : 1 ≤ g.Si570_N1) (hN1hi : g.Si570_N1 ≤ 128)
    (hHS : g.Si570_HS_DIV ∈ [4, 5, 6, 7, 9, 11])
    (hret : (Si570CalcRFREQ DCOMax X g freq data).1 = 1)
    (hF : (asmDiv X (asmMul g.Si570_N freq)).quot < 2 ^ 38) :
    decodeImage (Si570CalcRFREQ DCOMax X g freq data).2.bData
      = some (g.Si570_N1, g.Si570_HS_DIV, (asmDiv X (asmMul g.Si570_N freq)).quot) := by
  rw [calcRFREQ_data DCOMax X g freq data hret]
  obtain ⟨b0, b1, b2, b3, b4⟩ := asmDiv_bytes X (asmMul g.Si570_N freq)
  have hq4 : (asmDiv X (asmMul g.Si570_N freq)).q4 < 64 := by
    simp only [DivRegs.quot] at hF
    omega
  simp only [List.mem_cons, List.mem_singleton, List.mem_nil_iff, or_false] at hHS
  simp only [Si570_t.bData, rfreq_b4_pack _ _ hq4]
  rw [decodeImage_layout _ _ _ _ _ _ _ _ (by omega) (by omega) hq4 b3 b2 b1 b0]
  simp only [DivRegs.quot]
  congr 2
  · omega
  · congr 1
    omega

set_option maxRecDepth 100000 in
/-- Instance of C7: the register image of 10 MHz (`N1 = 54`, `HS_DIV = 9`,
`N = 486`, 114.285 MHz crystal) decodes to the same triple. -/
theorem register_image_round_trip_witness :
    (1 ≤ 54 ∧ 54 ≤ 128 ∧ 9 ∈ [4, 5, 6, 7, 9, 11]
      ∧ (Si570CalcRFREQ 5670 1917384622 ⟨486, 54, 9⟩ 20971520 ⟨0, 0, 0, 0, 0, 0, 0⟩).1 = 1
      ∧ (asmDiv 1917384622 (asmMul 486 20971520)).quot < 2 ^ 38)
    ∧ decodeImage
        (Si570CalcRFREQ 5670 1917384622 ⟨486, 54, 9⟩ 20971520 ⟨0, 0, 0, 0, 0, 0, 0⟩).2.bData
      = some (54, 9, (asmDiv 1917384622 (asmMul 486 20971520)).quot) :=
  ⟨⟨by norm_num, by norm_num, by decide, by decide, by decide⟩,
    register_image_round_trip 5670 1917384622 ⟨486, 54, 9⟩ 20971520 ⟨0, 0, 0, 0, 0, 0, 0⟩
      (by norm_num) (by norm_num) (by decide) (by decide) (by decide)⟩

/-- C8 (counterexample): with `DCOMax = 5670` MHz, `N = 8` and
`freq = 709 MHz` the product `N*freq` is 5672 MHz, above the configured
maximum, and `Si570CalcRFREQ` nevertheless returns 1. -/
theorem calcRFREQ_accepts_slightly_above_max :
    8 * 1486880768 > 5670 * 2 ^ 21
      ∧ (Si570CalcRFREQ 5670 1917384622 ⟨8, 2, 4⟩ 1486880768 ⟨0, 0, 0, 0, 0, 0, 0⟩).1 = 1 :=
  ⟨by norm_num, by decide⟩

/-- C8 (amended): for a 16-bit `N`, a 32-bit `freq` with `N*freq < 2^40` and
`DCOMax <= 65531`, if `N*freq` reaches the next multiple of `2^24` (8 MHz)
above the rounded limit, `N*freq >= (floor((DCOMax+4)/8) + 1) * 2^24`, then
`Si570CalcRFREQ` returns 0. -/
theorem calcRFREQ_rejects_beyond_tolerance (DCOMax X : Nat) (g : Dividers) (freq : Nat)
    (data : Si570_t)
    (hN : g.Si570_N < 2 ^ 16) (hf : freq < 2 ^ 32) (h40 : g.Si570_N * freq < 2 ^ 40)
    (hmax : DCOMax ≤ 65531)
    (hover : ((DCOMax + 4) / 8 + 1) * 2 ^ 24 ≤ g.Si570_N * freq) :
    (Si570CalcRFREQ DCOMax X g freq data).1 = 0 := by
  rw [calcRFREQ_ret, asmMul_dco _ _ hN hf, Nat.mod_eq_of_lt h40]
  have hm : (DCOMax + 4) % 65536 = DCOMax + 4 := Nat.mod_eq_of_lt (by omega)
  rw [hm, if_pos]
  have : (DCOMax + 4) / 8 + 1 ≤ g.Si570_N * freq / 2 ^ 24 := by
    rw [Nat.le_div_iff_mul_le (by norm_num)]
    exact hover
  omega

/-- Instance of the amended C8: `DCOMax = 5670`, `N = 8`, `freq = 710 MHz`
(a DCO of 5680 MHz) is rejected. -/
theorem calcRFREQ_rejects_beyond_tolerance_witness :
    ((8 : Nat) < 2 ^ 16 ∧ 1488977920 < 2 ^ 32 ∧ 8 * 1488977920 < 2 ^ 40 ∧ 5670 ≤ 65531
      ∧ ((5670 + 4) / 8 + 1) * 2 ^ 24 ≤ 8 * 1488977920)
    ∧ (Si570CalcRFREQ 5670 1917384622 ⟨8, 2, 4⟩ 1488977920 ⟨0, 0, 0, 0, 0, 0, 0⟩).1 = 0 :=
  ⟨⟨by norm_num, by norm_num, by norm_num, by norm_num, by norm_num⟩,
    calcRFREQ_rejects_beyond_tolerance 5670 1917384622 ⟨8, 2, 4⟩ 1488977920
      ⟨0, 0, 0, 0, 0, 0, 0⟩ (by norm_num) (by norm_num) (by norm_num) (by norm_num)
      (by norm_num)⟩

/-! ## Smooth-tune decision (`Si570_Small_Change`) -/

/-- C9 (evaluation at the failing input): with the last center at 14 MHz
(`FreqSmoothTune = 29360128`), `ppmLimit = 3500` and a candidate 286331154
units (about 136.5 MHz) higher, the exact `delta_Hz = |cur - prev| * 15` is
4294967310, far above the threshold `(prev >> 16) * ppmLimit = 1568000`, yet
`Si570_Small_Change` returns true: the 32-bit product wraps to 14. -/
theorem smallChange_wraps_times_15 :
    (315691282 - 29360128) * 15 = 4294967310
      ∧ (29360128 / 65536) * 3500 = 1568000
      ∧ ¬ ((315691282 - 29360128) * 15 ≤ (29360128 / 65536) * 3500)
      ∧ (315691282 - 29360128) * 15 % 2 ^ 32 = 14
      ∧ Si570_Small_Change 29360128 3500 315691282 = true := by
  refine ⟨by norm_num, by norm_num, by norm_num, by norm_num, by decide⟩

/-! ## Register write protocol (`Si570WriteLargeChange`) -/

/-- C10: when no byte goes unacknowledged, `Si570WriteLargeChange` issues
exactly four bus transactions, in this order: write `0x10` to register 137,
one block write of the six bytes `Si570_Data.bData[0..5]` in index order
starting at the configured RFREQ register index, write `0x00` to register 137,
write `0x40` to register 135; and the error flag is clear at the end. -/
theorem writeLargeChange_sequence (nack : Nat → Bool) (cfg : WriteCfg) (data : Si570_t)
    (b : Bus) (hok : ∀ n, nack n = false) :
    (Si570WriteLargeChange nack cfg data b).trace
        = b.trace
          ++ writeTxn cfg 137 [0x10]
          ++ writeTxn cfg (cfg.Si570RFREQIndex &&& cfg.RFREQ_INDEX) data.bData
          ++ writeTxn cfg 137 [0x00]
          ++ writeTxn cfg 135 [0x40]
      ∧ (Si570WriteLargeChange nack cfg data b).I2CErrors = false := by
  simp [Si570WriteLargeChange, Si570WriteRFREQ, Si570CmdReg, Si570CmdStart, I2CSendStart,
    I2CSendByte, I2CSendStop, writeTxn, Si570_t.bData, hok, Nat.shiftLeft_eq]

/-- Instance of C10: the register image of 10 MHz written to a chip at
address 0x55 with the RFREQ block at index 7. -/
theorem writeLargeChange_sequence_witness :
    (∀ n, (fun _ : Nat => false) n = false)
    ∧ ((Si570WriteLargeChange (fun _ => false) ⟨0x55, 7, 0x0F⟩
          ⟨13, 5, 66, 168, 103, 113, 170⟩ ⟨[], 0, false⟩).trace
        = [] ++ writeTxn ⟨0x55, 7, 0x0F⟩ 137 [0x10]
          ++ writeTxn ⟨0x55, 7, 0x0F⟩ (7 &&& 0x0F)
              (Si570_t.bData ⟨13, 5, 66, 168, 103, 113, 170⟩)
          ++ writeTxn ⟨0x55, 7, 0x0F⟩ 137 [0x00]
          ++ writeTxn ⟨0x55, 7, 0x0F⟩ 135 [0x40]
      ∧ (Si570WriteLargeChange (fun _ => false) ⟨0x55, 7, 0x0F⟩
          ⟨13, 5, 66, 168, 103, 113, 170⟩ ⟨[], 0, false⟩).I2CErrors = false) :=
  ⟨fun _ => rfl,
    writeLargeChange_sequence (fun _ => false) ⟨0x55, 7, 0x0F⟩
      ⟨13, 5, 66, 168, 103, 113, 170⟩ ⟨[], 0, false⟩ (fun _ => rfl)⟩

/-- C11 (counterexample): the first data byte of the block write (the sixth
byte sent) goes unacknowledged.  The freeze step succeeded, the block write
ends with the transport error flag set, and `Si570WriteLargeChange` still
issues the unfreeze write and the NewFreq strobe afterwards. -/
theorem writeLargeChange_unfreezes_after_failed_block_write :
    (Si570CmdReg (fun n => n == 5) ⟨0x55, 7, 0x0F⟩ 137 (1 <<< 4) ⟨[], 0, false⟩).I2CErrors
        = false
      ∧ (Si570WriteRFREQ (fun n => n == 5) ⟨0x55, 7, 0x0F⟩ ⟨13, 5, 66, 168, 103, 113, 170⟩
          (Si570CmdReg (fun n => n == 5) ⟨0x55, 7, 0x0F⟩ 137 (1 <<< 4)
            ⟨[], 0, false⟩)).I2CErrors = true
      ∧ (Si570WriteLargeChange (fun n => n == 5) ⟨0x55, 7, 0x0F⟩
          ⟨13, 5, 66, 168, 103, 113, 170⟩ ⟨[], 0, false⟩).trace
        = (Si570WriteRFREQ (fun n => n == 5) ⟨0x55, 7, 0x0F⟩ ⟨13, 5, 66, 168, 103, 113, 170⟩
            (Si570CmdReg (fun n => n == 5) ⟨0x55, 7, 0x0F⟩ 137 (1 <<< 4)
              ⟨[], 0, false⟩)).trace
          ++ writeTxn ⟨0x55, 7, 0x0F⟩ 137 [0x00]
          ++ writeTxn ⟨0x55, 7, 0x0F⟩ 135 [0x40] := by
  decide

/-- C11 (amended): in `Si570WriteLargeChange`, for every transport behaviour
in which the freeze step succeeded, the unfreeze write (`0x00` to register
137) and then the NewFreq strobe (`0x40` to register 135) are issued after the
block write, whether or not the block write reported a transport error,
provided the bytes of these two writes are acknowledged. -/
theorem writeLargeChange_always_unfreezes (nack : Nat → Bool) (cfg : WriteCfg)
    (data : Si570_t) (b : Bus)
    (hfreeze : (Si570CmdReg nack cfg 137 (1 <<< 4) b).I2CErrors = false)
    (hack : ∀ n, (Si570WriteRFREQ nack cfg data
        (Si570CmdReg nack cfg 137 (1 <<< 4) b)).sent ≤ n → nack n = false) :
    (Si570WriteLargeChange nack cfg data b).trace
      = (Si570WriteRFREQ nack cfg data (Si570CmdReg nack cfg 137 (1 <<< 4) b)).trace
        ++ writeTxn cfg 137 [0x00] ++ writeTxn cfg 135 [0x40] := by
  unfold Si570WriteLargeChange
  simp only [hfreeze, if_true]
  generalize Si570WriteRFREQ nack cfg data (Si570CmdReg nack cfg 137 (1 <<< 4) b) = b2
    at hack ⊢
  obtain ⟨t3, s3, -⟩ := cmdReg_of_ack nack cfg 137 (0 <<< 4) b2
    (hack _ (le_refl _)) (hack _ (by omega)) (hack _ (by omega))
  obtain ⟨t4, -, -⟩ := cmdReg_of_ack nack cfg 135 (1 <<< 6) (Si570CmdReg nack cfg 137 (0 <<< 4) b2)
    (hack _ (by omega)) (hack _ (by omega)) (hack _ (by omega))
  rw [t4, t3]
  rfl

/-- Instance of the amended C11: the transport of the counterexample, where
only the sixth byte sent goes unacknowledged. -/
theorem writeLargeChange_always_unfreezes_witness :
    ((Si570CmdReg (fun n => n == 5) ⟨0x55, 7, 0x0F⟩ 137 (1 <<< 4) ⟨[], 0, false⟩).I2CErrors
        = false
      ∧ ∀ n, (Si570WriteRFREQ (fun n => n == 5) ⟨0x55, 7, 0x0F⟩
          ⟨13, 5, 66, 168, 103, 113, 170⟩
          (Si570CmdReg (fun n => n == 5) ⟨0x55, 7, 0x0F⟩ 137 (1 <<< 4)
            ⟨[], 0, false⟩)).sent ≤ n → (fun n => n == 5) n = false)
    ∧ (Si570WriteLargeChange (fun n => n == 5) ⟨0x55, 7, 0x0F⟩
          ⟨13, 5, 66, 168, 103, 113, 170⟩ ⟨[], 0, false⟩).trace
        = (Si570WriteRFREQ (fun n => n == 5) ⟨0x55, 7, 0x0F⟩ ⟨13, 5, 66, 168, 103, 113, 170⟩
            (Si570CmdReg (fun n => n == 5) ⟨0x55, 7, 0x0F⟩ 137 (1 <<< 4)
              ⟨[], 0, false⟩)).trace
          ++ writeTxn ⟨0x55, 7, 0x0F⟩ 137 [0x00]
          ++ writeTxn ⟨0x55, 7, 0x0F⟩ 135 [0x40] :=
  have hsent : (Si570WriteRFREQ (fun n => n == 5) ⟨0x55, 7, 0x0F⟩
      ⟨13, 5, 66, 168, 103, 113, 170⟩
      (Si570CmdReg (fun n => n == 5) ⟨0x55, 7, 0x0F⟩ 137 (1 <<< 4) ⟨[], 0, false⟩)).sent
      = 11 := by decide
  have hack : ∀ n, (Si570WriteRFREQ (fun n => n == 5) ⟨0x55, 7, 0x0F⟩
      ⟨13, 5, 66, 168, 103, 113, 170⟩
      (Si570CmdReg (fun n => n == 5) ⟨0x55, 7, 0x0F⟩ 137 (1 <<< 4) ⟨[], 0, false⟩)).sent ≤ n
      → (fun n => n == 5) n = false := by
    intro n hn
    rw [hsent] at hn
    have : n ≠ 5 := by omega
    simpa using this
  ⟨⟨by decide, hack⟩,
    writeLargeChange_always_unfreezes (fun n => n == 5) ⟨0x55, 7, 0x0F⟩
      ⟨13, 5, 66, 168, 103, 113, 170⟩ ⟨[], 0, false⟩ (by decide) hack⟩

/-- C13: in `Si570WriteLargeChange`, when the freeze write (`0x10` to register
137) leaves the transport error flag set, nothing else is done: the call is
the freeze write alone, so the bus trace grows by the freeze transaction only
(cut short after the device address when that byte goes unacknowledged); no
block write, no unfreeze write and no NewFreq strobe follow. -/
theorem writeLargeChange_aborts_on_failed_freeze (nack : Nat → Bool) (cfg : WriteCfg)
    (data : Si570_t) (b : Bus)
    (hfail : (Si570CmdReg nack cfg 137 (1 <<< 4) b).I2CErrors = true) :
    Si570WriteLargeChange nack cfg data b = Si570CmdReg nack cfg 137 (1 <<< 4) b
      ∧ (Si570WriteLargeChange nack cfg data b).trace
        = b.trace ++
            (if nack b.sent = true then
              [BusEvent.start, BusEvent.byte ((cfg.ChipCrtlData * 2) % 256), BusEvent.stop]
            else writeTxn cfg 137 [0x10]) := by
  have h1 : Si570WriteLargeChange nack cfg data b = Si570CmdReg nack cfg 137 (1 <<< 4) b := by
    unfold Si570WriteLargeChange
    simp only [hfail]
    rfl
  refine ⟨h1, ?_⟩
  rw [h1, cmdReg_trace]
  rfl

/-- Instance of C13: the data byte `0x10` of the freeze write (the third byte
sent) goes unacknowledged. -/
theorem writeLargeChange_aborts_on_failed_freeze_witness :
    (Si570CmdReg (fun n => n == 2) ⟨0x55, 7, 0x0F⟩ 137 (1 <<< 4) ⟨[], 0, false⟩).I2CErrors
        = true
    ∧ (Si570WriteLargeChange (fun n => n == 2) ⟨0x55, 7, 0x0F⟩
          ⟨13, 5, 66, 168, 103, 113, 170⟩ ⟨[], 0, false⟩
        = Si570CmdReg (fun n => n == 2) ⟨0x55, 7, 0x0F⟩ 137 (1 <<< 4) ⟨[], 0, false⟩
      ∧ (Si570WriteLargeChange (fun n => n == 2) ⟨0x55, 7, 0x0F⟩
          ⟨13, 5, 66, 168, 103, 113, 170⟩ ⟨[], 0, false⟩).trace
        = [] ++
            (if (fun n => n == 2) (0 : Nat) = true then
              [BusEvent.start, BusEvent.byte ((0x55 * 2) % 256), BusEvent.stop]
            else writeTxn ⟨0x55, 7, 0x0F⟩ 137 [0x10])) :=
  ⟨by decide,
    writeLargeChange_aborts_on_failed_freeze (fun n => n == 2) ⟨0x55, 7, 0x0F⟩
      ⟨13, 5, 66, 168, 103, 113, 170⟩ ⟨[], 0, false⟩ (by decide)⟩

/-! ## The entry point (`SetFreq`) -/

set_option maxRecDepth 100000 in
/-- C12 (counterexample): from an unset center (`FreqSmoothTune = 0`),
`SetFreq(14 MHz)` takes the large-change path; the first data byte of the block
write goes unacknowledged, so the block-write step ends with the transport
error flag set; after the call `FreqSmoothTune` is 29360128, not its pre-call
value 0. -/
theorem setFreq_center_changes_despite_transport_error :
    smoothTunePath ⟨4850, 5670, ChipGrade.C, 1917384622, 3500, ⟨0x55, 7, 0x0F⟩, 0x10⟩
        ⟨29360128, ⟨0, 0, 0⟩, 0, ⟨0, 0, 0, 0, 0, 0, 0⟩, ⟨[], 0, false⟩⟩ 29360128 = false
      ∧ (Si570WriteRFREQ (fun n => n == 5) ⟨0x55, 7, 0x0F⟩
          (Si570CalcRFREQ 5670 1917384622 ⟨348, 58, 6⟩ 29360128 ⟨0, 0, 0, 0, 0, 0, 0⟩).2
          (Si570CmdReg (fun n => n == 5) ⟨0x55, 7, 0x0F⟩ 137 (1 <<< 4)
            ⟨[], 0, false⟩)).I2CErrors = true
      ∧ (SetFreq (fun n => n == 5)
            ⟨4850, 5670, ChipGrade.C, 1917384622, 3500, ⟨0x55, 7, 0x0F⟩, 0x10⟩ id 29360128
            ⟨0, ⟨0, 0, 0⟩, 0, ⟨0, 0, 0, 0, 0, 0, 0⟩, ⟨[], 0, false⟩⟩).map
          (fun g => (g.dividers, g.FreqSmoothTune)) = some (⟨348, 58, 6⟩, 29360128)
      ∧ (29360128 : Nat) ≠ 0 := by
  decide!

/-- C12 (amended): for every `SetFreq` call that takes the large-change path,
whatever the transport does: when both calculations succeed `FreqSmoothTune`
is after the call the frequency of that call; it has its pre-call value when
`Si570CalcDivider` fails or `Si570CalcRFREQ` reports the DCO out of range.
Hence after a call that returns, `FreqSmoothTune` equals its pre-call value
exactly when a calculation failed or the frequency of the call is that
pre-call value. -/
theorem setFreq_large_center_frequency (nack : Nat → Bool) (R : Config)
    (xform : Nat → Nat) (freq : Nat) (g : Globals)
    (hpath : smoothTunePath R { g with Freq := freq } (xform freq) = false) :
    (∀ d, Si570CalcDivider R.Si570DCOMin R.Si570Grade (xform freq) g.dividers
            = some (true, d) →
          (Si570CalcRFREQ R.Si570DCOMax R.FreqXtal d (xform freq) g.Si570_Data).1 ≠ 0 →
          (SetFreq nack R xform freq g).map (fun s => s.FreqSmoothTune) = some (xform freq))
      ∧ (∀ d, Si570CalcDivider R.Si570DCOMin R.Si570Grade (xform freq) g.dividers
            = some (true, d) →
          (Si570CalcRFREQ R.Si570DCOMax R.FreqXtal d (xform freq) g.Si570_Data).1 = 0 →
          (SetFreq nack R xform freq g).map (fun s => s.FreqSmoothTune)
            = some g.FreqSmoothTune)
      ∧ (∀ d, Si570CalcDivider R.Si570DCOMin R.Si570Grade (xform freq) g.dividers
            = some (false, d) →
          (SetFreq nack R xform freq g).map (fun s => s.FreqSmoothTune)
            = some g.FreqSmoothTune)
      ∧ (∀ g2, SetFreq nack R xform freq g = some g2 →
          (g2.FreqSmoothTune = g.FreqSmoothTune
            ↔ ((∃ d, Si570CalcDivider R.Si570DCOMin R.Si570Grade (xform freq) g.dividers
                    = some (false, d))
                ∨ (∃ d, Si570CalcDivider R.Si570DCOMin R.Si570Grade (xform freq) g.dividers
                      = some (true, d)
                    ∧ (Si570CalcRFREQ R.Si570DCOMax R.FreqXtal d (xform freq)
                        g.Si570_Data).1 = 0)
                ∨ xform freq = g.FreqSmoothTune))) := by
  unfold SetFreq
  simp only [hpath, Bool.false_eq_true, if_false]
  unfold SetFreq_largeChange
  refine ⟨?_, ?_, ?_, ?_⟩
  · intro d hd hr
    simp only [hd, hr, if_false, Option.map_some']
  · intro d hd hr
    simp only [hd, hr, if_true, Option.map_some']
  · intro d hd
    simp only [hd, Option.map_some']
  · intro g2 h
    cases hd : Si570CalcDivider R.Si570DCOMin R.Si570Grade (xform freq) g.dividers with
    | none =>
      rw [hd] at h
      cases h
    | some r =>
      obtain ⟨ok, d⟩ := r
      rw [hd] at h
      cases ok with
      | false =>
        simp only [Option.some.injEq] at h
        subst h
        exact ⟨fun _ => Or.inl ⟨d, rfl⟩, fun _ => rfl⟩
      | true =>
        simp only [] at h
        by_cases hr : (Si570CalcRFREQ R.Si570DCOMax R.FreqXtal d (xform freq)
            g.Si570_Data).1 = 0
        · rw [if_pos hr] at h
          simp only [Option.some.injEq] at h
          subst h
          exact ⟨fun _ => Or.inr (Or.inl ⟨d, rfl, hr⟩), fun _ => rfl⟩
        · rw [if_neg hr] at h
          simp only [Option.some.injEq] at h
          subst h
          constructor
          · intro he
            exact Or.inr (Or.inr he)
          · rintro (⟨d1, h1⟩ | ⟨d1, h1, h2⟩ | he)
            · cases h1
            · injection h1 with h1
              injection h1 with _ h1
              subst h1
              exact absurd h2 hr
            · exact he

set_option maxRecDepth 100000 in
/-- Instance of the amended C12: the call of the counterexample. -/
theorem setFreq_large_center_frequency_witness :
    smoothTunePath ⟨4850, 5670, ChipGrade.C, 1917384622, 3500, ⟨0x55, 7, 0x0F⟩, 0x10⟩
        { (⟨0, ⟨0, 0, 0⟩, 0, ⟨0, 0, 0, 0, 0, 0, 0⟩, ⟨[], 0, false⟩⟩ : Globals) with
          Freq := 29360128 } (id 29360128) = false
    ∧ Si570CalcDivider 4850 ChipGrade.C (id 29360128) ⟨0, 0, 0⟩ = some (true, ⟨348, 58, 6⟩)
    ∧ (Si570CalcRFREQ 5670 1917384622 ⟨348, 58, 6⟩ (id 29360128) ⟨0, 0, 0, 0, 0, 0, 0⟩).1 ≠ 0
    ∧ (SetFreq (fun n => n == 5)
          ⟨4850, 5670, ChipGrade.C, 1917384622, 3500, ⟨0x55, 7, 0x0F⟩, 0x10⟩ id 29360128
          ⟨0, ⟨0, 0, 0⟩, 0, ⟨0, 0, 0, 0, 0, 0, 0⟩, ⟨[], 0, false⟩⟩).map
        (fun s => s.FreqSmoothTune) = some (id 29360128) :=
  ⟨by decide!, by decide!, by decide!,
    (setFreq_large_center_frequency (fun n => n == 5)
      ⟨4850, 5670, ChipGrade.C, 1917384622, 3500, ⟨0x55, 7, 0x0F⟩, 0x10⟩ id 29360128
      ⟨0, ⟨0, 0, 0⟩, 0, ⟨0, 0, 0, 0, 0, 0, 0⟩, ⟨[], 0, false⟩⟩ (by decide!)).1
      ⟨348, 58, 6⟩ (by decide!) (by decide!)⟩

set_option maxRecDepth 100000 in
/-- C14 (evaluation at the failing input): grade C, limits 4850/5670 MHz,
`ppmLimit = 3500`.  `SetFreq(283.9 MHz)` programs `N = 20` (DCO 5678 MHz, inside
the tolerance of the range check).  The next request, 284.1 MHz, is a small
change; `Si570CalcRFREQ` returns 0 (DCO 5682 MHz out of range), and the call
nevertheless issues a block write of `Si570_Data` on the bus. -/
theorem setFreq_small_change_writes_when_dco_out_of_range :
    SetFreq (fun _ => false)
        ⟨4850, 5670, ChipGrade.C, 1917384622, 3500, ⟨0x55, 7, 0x0F⟩, 0x10⟩ id 595381453
        ⟨0, ⟨0, 0, 0⟩, 0, ⟨0, 0, 0, 0, 0, 0, 0⟩, ⟨[], 0, false⟩⟩
      = some ⟨595381453, ⟨20, 4, 5⟩, 595381453, ⟨0, 1, 195, 26, 236, 189, 99⟩,
          ⟨writeTxn ⟨0x55, 7, 0x0F⟩ 137 [0x10]
            ++ writeTxn ⟨0x55, 7, 0x0F⟩ 7 [32, 195, 26, 236, 189, 99]
            ++ writeTxn ⟨0x55, 7, 0x0F⟩ 137 [0x00]
            ++ writeTxn ⟨0x55, 7, 0x0F⟩ 135 [0x40], 17, false⟩⟩
    ∧ smoothTunePath ⟨4850, 5670, ChipGrade.C, 1917384622, 3500, ⟨0x55, 7, 0x0F⟩, 0x10⟩
        ⟨595800883, ⟨20, 4, 5⟩, 595381453, ⟨0, 1, 195, 26, 236, 189, 99⟩, ⟨[], 17, false⟩⟩
        595800883 = true
    ∧ (Si570CalcRFREQ 5670 1917384622 ⟨20, 4, 5⟩ 595800883
        ⟨0, 1, 195, 26, 236, 189, 99⟩).1 = 0
    ∧ (SetFreq (fun _ => false)
          ⟨4850, 5670, ChipGrade.C, 1917384622, 3500, ⟨0x55, 7, 0x0F⟩, 0x10⟩ id 595800883
          ⟨595381453, ⟨20, 4, 5⟩, 595381453, ⟨0, 1, 195, 26, 236, 189, 99⟩,
            ⟨[], 17, false⟩⟩).map (fun s => s.bus.trace)
        = some (writeTxn ⟨0x55, 7, 0x0F⟩ 7 [32, 195, 26, 236, 189, 99]) := by
  decide!

/-- C15: with `R.SmoothTunePPM = 0`, for every target frequency and every
value of `FreqSmoothTune`, `SetFreq` does not take the small-change branch: the
call is the large-change branch, which runs `Si570CalcDivider`, returns when
it or `Si570CalcRFREQ` fails, and otherwise sets `FreqSmoothTune` and runs
`Si570WriteLargeChange`; the bus is touched by nothing else. -/
theorem setFreq_ppm_zero_large_change (nack : Nat → Bool) (R : Config) (xform : Nat → Nat)
    (freq : Nat) (g : Globals) (hppm : R.SmoothTunePPM = 0) :
    smoothTunePath R { g with Freq := freq } (xform freq) = false
      ∧ SetFreq nack R xform freq g
        = (match Si570CalcDivider R.Si570DCOMin R.Si570Grade (xform freq) g.dividers with
            | none => none
            | some (false, _) => some { g with Freq := freq }
            | some (true, d) =>
                if (Si570CalcRFREQ R.Si570DCOMax R.FreqXtal d (xform freq) g.Si570_Data).1 = 0
                then
                  some { g with
                    Freq := freq, dividers := d,
                    Si570_Data :=
                      (Si570CalcRFREQ R.Si570DCOMax R.FreqXtal d (xform freq) g.Si570_Data).2 }
                else
                  some { g with
                    Freq := freq, dividers := d,
                    Si570_Data :=
                      (Si570CalcRFREQ R.Si570DCOMax R.FreqXtal d (xform freq) g.Si570_Data).2,
                    FreqSmoothTune := xform freq,
                    bus := Si570WriteLargeChange nack R.write
                      (Si570CalcRFREQ R.Si570DCOMax R.FreqXtal d (xform freq) g.Si570_Data).2
                      g.bus }) := by
  have hpath := smoothTunePath_of_ppm_zero R { g with Freq := freq } (xform freq) hppm
  refine ⟨hpath, ?_⟩
  unfold SetFreq
  simp only [hpath, Bool.false_eq_true, if_false]
  unfold SetFreq_largeChange
  rfl

/-- Instance of C15: a ppm limit of zero with a 14 MHz request. -/
theorem setFreq_ppm_zero_large_change_witness :
    (⟨4850, 5670, ChipGrade.C, 1917384622, 0, ⟨0x55, 7, 0x0F⟩, 0x10⟩ : Config).SmoothTunePPM = 0
    ∧ smoothTunePath ⟨4850, 5670, ChipGrade.C, 1917384622, 0, ⟨0x55, 7, 0x0F⟩, 0x10⟩
        ⟨29360128, ⟨348, 58, 6⟩, 29360128, ⟨0, 0, 0, 0, 0, 0, 0⟩, ⟨[], 0, false⟩⟩ 29360128
      = false :=
  ⟨rfl,
    (setFreq_ppm_zero_large_change (fun _ => false)
      ⟨4850, 5670, ChipGrade.C, 1917384622, 0, ⟨0x55, 7, 0x0F⟩, 0x10⟩ id 29360128
      ⟨29360128, ⟨348, 58, 6⟩, 29360128, ⟨0, 0, 0, 0, 0, 0, 0⟩, ⟨[], 0, false⟩⟩ rfl).1⟩

set_option maxRecDepth 100000 in
/-- C16: scenario B.  Starting from the unset state (`FreqSmoothTune = 0`),
with `ppmLimit = 3500`, crystal 114.285 MHz, DCO limits 4850/5670 MHz, no
offset/multiply stage and no transport errors, for every grade, for the index
addressing without and with the freeze flag, and for 14.000050 MHz rounded down
or to nearest: `SetFreq(14 MHz)` followed by `SetFreq(14.000050 MHz)` takes the
small-change branch for the second request, keeps `Si570_N`, `Si570_N1`,
`Si570_HS_DIV` and `FreqSmoothTune` as set by the first request, and the second
call puts no write to register 137 and no write of `0x40` to register 135 on
the bus. -/
theorem scenarioB_second_request_small_change (grade : ChipGrade) :
    ScenarioB ⟨4850, 5670, grade, 1917384622, 3500, ⟨0x55, 7, 0x0F⟩, 0x10⟩ 29360128 29360233
      ∧ ScenarioB ⟨4850, 5670, grade, 1917384622, 3500, ⟨0x55, 7, 0x0F⟩, 0x10⟩
          29360128 29360232
      ∧ ScenarioB ⟨4850, 5670, grade, 1917384622, 3500, ⟨0x55, 0x1D, 0x0F⟩, 0x10⟩
          29360128 29360233
      ∧ ScenarioB ⟨4850, 5670, grade, 1917384622, 3500, ⟨0x55, 0x1D, 0x0F⟩, 0x10⟩
          29360128 29360232 := by
  cases grade <;>
    exact ⟨scenarioB_eval _ _ _ (by decide!) (by decide!),
      scenarioB_eval _ _ _ (by decide!) (by decide!),
      scenarioB_eval _ _ _ (by decide!) (by decide!),
      scenarioB_eval _ _ _ (by decide!) (by decide!)⟩

set_option maxRecDepth 100000 in
/-- C19 (evaluation at the failing input): with `FreqSmoothTune = 0` (unset),
`ppmLimit = 3500` and the target frequency 0, `Si570_Small_Change` reports
eligible (0 <= 0), `SetFreq` takes the small-change branch and writes a
register image computed from the stale dividers to the chip. -/
theorem setFreq_unset_center_smooth_tunes_at_zero :
    Si570_Small_Change 0 3500 0 = true
      ∧ smoothTunePath ⟨4850, 5670, ChipGrade.C, 1917384622, 3500, ⟨0x55, 7, 0x0F⟩, 0x10⟩
          ⟨0, ⟨0, 0, 0⟩, 0, ⟨0, 0, 0, 0, 0, 0, 0⟩, ⟨[], 0, false⟩⟩ 0 = true
      ∧ SetFreq (fun _ => false)
          ⟨4850, 5670, ChipGrade.C, 1917384622, 3500, ⟨0x55, 7, 0x0F⟩, 0x10⟩ id 0
          ⟨0, ⟨0, 0, 0⟩, 0, ⟨0, 0, 0, 0, 0, 0, 0⟩, ⟨[], 0, false⟩⟩
        = some (SetFreq_smallChange (fun _ => false)
            ⟨4850, 5670, ChipGrade.C, 1917384622, 3500, ⟨0x55, 7, 0x0F⟩, 0x10⟩ 0
            ⟨0, ⟨0, 0, 0⟩, 0, ⟨0, 0, 0, 0, 0, 0, 0⟩, ⟨[], 0, false⟩⟩)
      ∧ (SetFreq (fun _ => false)
          ⟨4850, 5670, ChipGrade.C, 1917384622, 3500, ⟨0x55, 7, 0x0F⟩, 0x10⟩ id 0
          ⟨0, ⟨0, 0, 0⟩, 0, ⟨0, 0, 0, 0, 0, 0, 0⟩, ⟨[], 0, false⟩⟩).map
            (fun s => s.bus.trace)
        = some (writeTxn ⟨0x55, 7, 0x0F⟩ 7 [159, 192, 0, 0, 0, 0]) := by
  decide!

/-! ## Chip variant auto-detection (`Auto_index_detect_RFREQ`) -/

/-- C17 (counterexample): with the macro values `RFREQ_FREEZE = 0x10`,
`RFREQ_7_INDEX = 7`, `RFREQ_13_INDEX = 13`, `RFREQ_AUTO_INDEX = 0`,
`RFREQ_INDEX = 0x0F` and no transport error: a configuration `0x10` (auto, freeze
flag set) whose read-back equals the signature becomes `0x17`, index 7 with the
freeze flag still set; a configuration `0x00` (auto, freeze flag clear) whose
read-back differs becomes 13, index 13 with the freeze flag still clear. -/
theorem autoDetect_leaves_freeze_flag :
    (Auto_index_detect_RFREQ (fun _ => false) (fun i => signature.getD i 0)
        ⟨0x55, 0x10, 0x0F⟩ ⟨0x10, 7, 13, 0⟩ ⟨0, 0, 0, 0, 0, 0, 0⟩ ⟨[], 0, false⟩).1 = 0x17
      ∧ 0x17 &&& 0x0F = 7 ∧ 0x17 &&& 0x10 ≠ 0
      ∧ (Auto_index_detect_RFREQ (fun _ => false) (fun _ => 1)
          ⟨0x55, 0x00, 0x0F⟩ ⟨0x10, 7, 13, 0⟩ ⟨0, 0, 0, 0, 0, 0, 0⟩ ⟨[], 0, false⟩).1 = 13
      ∧ 13 &&& 0x0F = 13 ∧ 13 &&& 0x10 = 0 := by
  decide

/-- C17 (amended): when the index field of `R.Si570RFREQIndex` is 'auto' and
the read of the register block at index 13 reports success,
`Auto_index_detect_RFREQ` sets the index to `RFREQ_7_INDEX` if the six bytes
read back equal the signature 07 C2 C0 00 00 00 and to `RFREQ_13_INDEX` if they
differ; in both cases only the freeze bit of the old value is kept beside it,
so that (the index macros being bytes disjoint from `RFREQ_FREEZE`) the
freeze-required flag has the value it had before. -/
theorem autoDetect_selects_index_keeps_freeze (nack : Nat → Bool) (rx : Nat → Nat)
    (cfg : WriteCfg) (m : IndexMacros) (data : Si570_t) (b : Bus)
    (hauto : cfg.Si570RFREQIndex &&& cfg.RFREQ_INDEX = m.RFREQ_AUTO_INDEX)
    (hread : (Si570ReadRFREQ nack rx cfg m.RFREQ_13_INDEX data
        (Si570CmdReg nack cfg 135 0x01 b)).1 ≠ 0) :
    ([rx 0 % 256, rx 1 % 256, rx 2 % 256, rx 3 % 256, rx 4 % 256, rx 5 % 256]
          = [0x07, 0xC2, 0xC0, 0x00, 0x00, 0x00] →
        (Auto_index_detect_RFREQ nack rx cfg m data b).1
          = ((cfg.Si570RFREQIndex &&& m.RFREQ_FREEZE) ||| m.RFREQ_7_INDEX) % 256)
      ∧ ([rx 0 % 256, rx 1 % 256, rx 2 % 256, rx 3 % 256, rx 4 % 256, rx 5 % 256]
          ≠ [0x07, 0xC2, 0xC0, 0x00, 0x00, 0x00] →
        (Auto_index_detect_RFREQ nack rx cfg m data b).1
          = ((cfg.Si570RFREQIndex &&& m.RFREQ_FREEZE) ||| m.RFREQ_13_INDEX) % 256)
      ∧ (cfg.Si570RFREQIndex < 256 → m.RFREQ_7_INDEX < 256 → m.RFREQ_13_INDEX < 256 →
          m.RFREQ_7_INDEX &&& m.RFREQ_FREEZE = 0 → m.RFREQ_13_INDEX &&& m.RFREQ_FREEZE = 0 →
        (Auto_index_detect_RFREQ nack rx cfg m data b).1 &&& m.RFREQ_FREEZE
          = cfg.Si570RFREQIndex &&& m.RFREQ_FREEZE) := by
  have hdata := readRFREQ_data nack rx cfg m.RFREQ_13_INDEX data _ hread
  have hsel : (Auto_index_detect_RFREQ nack rx cfg m data b).1
      = if [rx 0 % 256, rx 1 % 256, rx 2 % 256, rx 3 % 256, rx 4 % 256, rx 5 % 256]
            = [0x07, 0xC2, 0xC0, 0x00, 0x00, 0x00]
        then ((cfg.Si570RFREQIndex &&& m.RFREQ_FREEZE) ||| m.RFREQ_7_INDEX) % 256
        else ((cfg.Si570RFREQIndex &&& m.RFREQ_FREEZE) ||| m.RFREQ_13_INDEX) % 256 := by
    unfold Auto_index_detect_RFREQ Check_Signature
    simp only [hauto, if_true, if_neg hread, hdata, signatureLoop_six]
    split_ifs <;> simp_all
  refine ⟨fun h => ?_, fun h => ?_, fun h1 h2 h3 h4 h5 => ?_⟩
  · rw [hsel, if_pos h]
  · rw [hsel, if_neg h]
  · rw [hsel]
    split_ifs
    · exact freeze_bit_kept _ _ _ h1 h2 h4
    · exact freeze_bit_kept _ _ _ h1 h3 h5

/-- Instance of the amended C17: a configuration `0x10` (auto, freeze flag set)
reading back the signature. -/
theorem autoDetect_selects_index_keeps_freeze_witness :
    ((⟨0x55, 0x10, 0x0F⟩ : WriteCfg).Si570RFREQIndex &&& (⟨0x55, 0x10, 0x0F⟩ : WriteCfg).RFREQ_INDEX
        = (⟨0x10, 7, 13, 0⟩ : IndexMacros).RFREQ_AUTO_INDEX
      ∧ (Si570ReadRFREQ (fun _ => false) (fun i => signature.getD i 0) ⟨0x55, 0x10, 0x0F⟩
          (⟨0x10, 7, 13, 0⟩ : IndexMacros).RFREQ_13_INDEX ⟨0, 0, 0, 0, 0, 0, 0⟩
          (Si570CmdReg (fun _ => false) ⟨0x55, 0x10, 0x0F⟩ 135 0x01 ⟨[], 0, false⟩)).1 ≠ 0
      ∧ [signature.getD 0 0 % 256, signature.getD 1 0 % 256, signature.getD 2 0 % 256,
          signature.getD 3 0 % 256, signature.getD 4 0 % 256, signature.getD 5 0 % 256]
        = [0x07, 0xC2, 0xC0, 0x00, 0x00, 0x00])
    ∧ (Auto_index_detect_RFREQ (fun _ => false) (fun i => signature.getD i 0)
        ⟨0x55, 0x10, 0x0F⟩ ⟨0x10, 7, 13, 0⟩ ⟨0, 0, 0, 0, 0, 0, 0⟩ ⟨[], 0, false⟩).1
      = ((0x10 &&& 0x10) ||| 7) % 256 :=
  ⟨⟨by decide, by decide, by decide⟩,
    (autoDetect_selects_index_keeps_freeze (fun _ => false) (fun i => signature.getD i 0)
      ⟨0x55, 0x10, 0x0F⟩ ⟨0x10, 7, 13, 0⟩ ⟨0, 0, 0, 0, 0, 0, 0⟩ ⟨[], 0, false⟩
      (by decide) (by decide)).1 (by decide)⟩

/-! ## Numerical properties -/

/-- C18 (counterexample): for `N0 = 22` and `HS_DIV = 11` the candidate
computed before the even-rounding step is 3, while `ceil(22 / 11)` is 2. -/
theorem xN1_not_ceil_when_divisible :
    xN1_w 22 11 = 3 ∧ (22 + 11 - 1) / 11 = 2 ∧ xN1_w 22 11 ≠ (22 + 11 - 1) / 11 := by
  decide

/-- C18 (amended): in `Si570CalcDivider`, for every 16-bit `N0` and every
`HS_DIV = h` in {11,9,7,6,5,4}, the candidate computed before the even-rounding
step is `floor(N0 / h) + 1`: it equals `ceil(N0 / h)` when `h` does not divide
`N0` and `ceil(N0 / h) + 1` when it does (it is `ceil((N0 + 1) / h)`). -/
theorem xN1_is_floor_plus_one (N0 h : Nat) (hN0 : N0 < 65536)
    (hh : h ∈ [11, 9, 7, 6, 5, 4]) :
    xN1_w N0 h = N0 / h + 1
      ∧ xN1_w N0 h = (N0 + 1 + h - 1) / h
      ∧ (N0 % h ≠ 0 → xN1_w N0 h = (N0 + h - 1) / h)
      ∧ (N0 % h = 0 → xN1_w N0 h = (N0 + h - 1) / h + 1) := by
  unfold xN1_w
  simp only [List.mem_cons, List.mem_singleton, List.mem_nil_iff, or_false] at hh
  rcases hh with rfl | rfl | rfl | rfl | rfl | rfl <;>
    refine ⟨?_, ?_, ?_, ?_⟩ <;> omega

/-- Instance of the amended C18: `N0 = 485`, `HS_DIV = 9` gives 54. -/
theorem xN1_is_floor_plus_one_witness :
    ((485 : Nat) < 65536 ∧ 9 ∈ [11, 9, 7, 6, 5, 4])
    ∧ (xN1_w 485 9 = 485 / 9 + 1
      ∧ xN1_w 485 9 = (485 + 1 + 9 - 1) / 9
      ∧ (485 % 9 ≠ 0 → xN1_w 485 9 = (485 + 9 - 1) / 9)
      ∧ (485 % 9 = 0 → xN1_w 485 9 = (485 + 9 - 1) / 9 + 1)) :=
  ⟨⟨by norm_num, by decide⟩, xN1_is_floor_plus_one 485 9 (by norm_num) (by decide)⟩

/-- C20: tolerance of the DCO range check in `Si570CalcRFREQ`.  For a 16-bit
`N` and a 32-bit `freq` with `N*freq < 2^40` and `DCOMax <= 65531`: the check
passes (the function returns 1) iff
`floor(N*freq / 2^24) <= floor((DCOMax + 4) / 8)`; it never rejects an in-range
oscillator frequency (`N*freq <= DCOMax * 2^21`), and it always rejects one
that is 12 MHz or more above the maximum (`N*freq >= (DCOMax + 12) * 2^21`). -/
theorem calcRFREQ_range_check_tolerance (DCOMax X : Nat) (g : Dividers) (freq : Nat)
    (data : Si570_t)
    (hN : g.Si570_N < 2 ^ 16) (hf : freq < 2 ^ 32) (h40 : g.Si570_N * freq < 2 ^ 40)
    (hmax : DCOMax ≤ 65531) :
    ((Si570CalcRFREQ DCOMax X g freq data).1 = 1
        ↔ g.Si570_N * freq / 2 ^ 24 ≤ (DCOMax + 4) / 8)
      ∧ (g.Si570_N * freq ≤ DCOMax * 2 ^ 21 → (Si570CalcRFREQ DCOMax X g freq data).1 = 1)
      ∧ ((DCOMax + 12) * 2 ^ 21 ≤ g.Si570_N * freq →
          (Si570CalcRFREQ DCOMax X g freq data).1 = 0) := by
  rw [calcRFREQ_ret, asmMul_dco _ _ hN hf, Nat.mod_eq_of_lt h40]
  have hm : (DCOMax + 4) % 65536 = DCOMax + 4 := Nat.mod_eq_of_lt (by omega)
  rw [hm]
  generalize g.Si570_N * freq = P
  by_cases hc : P / 2 ^ 24 > (DCOMax + 4) / 8
  · rw [if_pos hc]
    refine ⟨⟨fun h => by omega, fun h => by omega⟩, fun h => by omega, fun _ => rfl⟩
  · rw [if_neg hc]
    refine ⟨⟨fun _ => by omega, fun _ => rfl⟩, fun _ => rfl, fun h => by omega⟩

/-- Instance of C20: `DCOMax = 5670`, `N = 8`, `freq = 709 MHz` (5672 MHz, in
the tolerated band) passes the check. -/
theorem calcRFREQ_range_check_tolerance_witness :
    ((8 : Nat) < 2 ^ 16 ∧ 1486880768 < 2 ^ 32 ∧ 8 * 1486880768 < 2 ^ 40 ∧ 5670 ≤ 65531)
    ∧ (((Si570CalcRFREQ 5670 1917384622 ⟨8, 2, 4⟩ 1486880768 ⟨0, 0, 0, 0, 0, 0, 0⟩).1 = 1
        ↔ 8 * 1486880768 / 2 ^ 24 ≤ (5670 + 4) / 8)
      ∧ (8 * 1486880768 ≤ 5670 * 2 ^ 21 →
          (Si570CalcRFREQ 5670 1917384622 ⟨8, 2, 4⟩ 1486880768 ⟨0, 0, 0, 0, 0, 0, 0⟩).1 = 1)
      ∧ ((5670 + 12) * 2 ^ 21 ≤ 8 * 1486880768 →
          (Si570CalcRFREQ 5670 1917384622 ⟨8, 2, 4⟩ 1486880768
            ⟨0, 0, 0, 0, 0, 0, 0⟩).1 = 0)) :=
  ⟨⟨by norm_num, by norm_num, by norm_num, by norm_num⟩,
    calcRFREQ_range_check_tolerance 5670 1917384622 ⟨8, 2, 4⟩ 1486880768
      ⟨0, 0, 0, 0, 0, 0, 0⟩ (by norm_num) (by norm_num) (by norm_num) (by norm_num)⟩

end Si570
